import Mathlib

/-!
# FM HCI transport core (fm_hci/fm_hci.cpp)

A shallow embedding of the command/event queues, the credit gate, the two
worker loops and the lifecycle functions of `fm_hci.cpp`, followed by the
properties proved about them.

Conventions of the embedding

* The global record `hci` and the global handle `fmHci` are the fields of
  `Machine`; every C function becomes a function on `Machine`.
* A worker thread is represented by the program point at which it stands
  (`tx_point`, `rx_point`); one call of a `..._step` function executes the code
  between two such points (one critical section).  A point at which the thread
  is blocked is a fixed point of the step function.
* What the code does to the outside world (the transport `sendHciCommand`, the
  client `process_event`, ...) is recorded in observation logs of `Machine`;
  those fields are never read by the embedded code.
* A call that does not return is the value `none`.
* The locks each worker holds are tracked beside the program state
  (`LockedMachine`): every worker step lists its lock operations and outward
  calls in the order of the source.
-/

namespace FmHci

/-! ## Data model -/

/-- Transport state, the enumeration `fm_power_state_t` used by `hci.state`. -/
inductive fm_power_state_t where
  | FM_RADIO_DISABLED
  | FM_RADIO_ENABLING
  | FM_RADIO_ENABLED
  | FM_RADIO_DISABLING
deriving DecidableEq, Repr

/-- Status codes returned to the client. -/
inductive fm_hc_status where
  | FM_HC_STATUS_SUCCESS
  | FM_HC_STATUS_FAIL
  | FM_HC_STATUS_NULL_POINTER
deriving DecidableEq, Repr

/-- Modelled from the spec: the numeric values of the status codes are declared in
fm_hci.h, which is not part of the sources.  The code tests a status with
`if (ret)`; the spec says that a worker start failure is what triggers the
teardown, so `FAIL` and `NULL_POINTER` are the non-zero codes and `SUCCESS`
is zero. -/
def fm_hc_status.nonzero : fm_hc_status → Bool
  | .FM_HC_STATUS_SUCCESS => false
  | .FM_HC_STATUS_FAIL => true
  | .FM_HC_STATUS_NULL_POINTER => true

/-- Outbound command: the fields of `fm_command_header_t` the code reads
(`opcode`, `len`) and the payload bytes. -/
structure fm_command_header_t where
  opcode : Nat
  len : Nat
  params : List Nat
deriving DecidableEq, Repr

/-- Inbound event: the copy of the received bytes that `hciEventReceived`
allocates with `malloc(event.size())`, seen through `fm_event_header_t`:
`evt_code` and the parameter bytes `params[0], params[1], ...` that were
received.  The code never compares an index with the length of the copy, so
`params[i]` with `i` past the last received byte reads the memory that follows
the copy; `beyond` is the byte such a read finds there.  (One event is read at
one index only, so one value is enough.) -/
structure fm_event_header_t where
  evt_code : Nat
  params : List Nat
  beyond : Nat
deriving DecidableEq, Repr

/-- The three event-code constants `FM_CMD_COMPLETE`, `FM_CMD_STATUS` and
`FM_HW_ERR_EVENT`.  Their values are declared in fm_hci.h, which is not part of
the sources, so they are parameters of the embedding. -/
structure EventCodes where
  FM_CMD_COMPLETE : Nat
  FM_CMD_STATUS : Nat
  FM_HW_ERR_EVENT : Nat
deriving DecidableEq, Repr

/-- The read `evt_buf->params[i]`: the received byte at index `i`, or, when the
event has no such byte, what lies in memory past the end of the copy. -/
def fm_event_header_t.param (evt_buf : fm_event_header_t) (i : Nat) : Nat :=
  match evt_buf.params[i]? with
  | some b => b
  | none => evt_buf.beyond

/-- Client callback table `fm_hci_callbacks_t`: for each function pointer,
whether it is non-null. -/
structure fm_hci_callbacks_t where
  process_event : Bool
  fm_hci_close_done : Bool
deriving DecidableEq, Repr

/-- Argument of `fm_hci_init`: `hal` tells whether `hci_hal->hal` is non-null,
`cb` is `hci_hal->cb` (`none` for a null pointer). -/
structure fm_hci_hal_t where
  hal : Bool
  cb : Option fm_hci_callbacks_t
deriving DecidableEq, Repr

/-- Program points of the thread `hci.tx_thread_` (function `hci_tx_thread`
with the inlined `dequeue_fm_tx_cmd`). -/
inductive tx_point where
  /-- no thread object is attached (not joinable) -/
  | no_thread
  /-- the thread was created and has not yet run its first statement -/
  | spawned
  /-- at the test of `while (hci.state != DISABLING && hci.state != DISABLED)` -/
  | loop_cond
  /-- blocked in `hci.tx_cond.wait(lk)` -/
  | wait_cmd
  /-- at the head of `while (1)` in `dequeue_fm_tx_cmd` -/
  | drain_head
  /-- `hdr` was popped; at `Lock lk(hci.credit_mtx)`, or blocked in
  `hci.cmd_credits_cond.wait(lk)` -/
  | credit_gate (hdr : fm_command_header_t)
  /-- `hci_tx_thread` has returned; the thread is not yet joined -/
  | exited
deriving DecidableEq, Repr

/-- Program points of the thread `hci.rx_thread_` (function `hci_rx_thread`
with the inlined `dequeue_fm_rx_event`). -/
inductive rx_point where
  | no_thread
  | spawned
  | loop_cond
  /-- blocked in `hci.rx_cond.wait(lk)` -/
  | wait_evt
  /-- at the head of `while (1)` in `dequeue_fm_rx_event` -/
  | drain_head
  /-- `evt_buf` was popped; at `hci.credit_mtx.lock()` -/
  | process (evt_buf : fm_event_header_t)
  | exited
deriving DecidableEq, Repr

/-- The global record `hci` (`struct fm_hci_t`).  The mutexes and condition
variables carry no data; what they do is expressed by the program points of the
two threads. -/
structure fm_hci_t where
  state : fm_power_state_t
  is_tx_processing : Bool
  is_rx_processing : Bool
  is_tx_thread_running : Bool
  is_rx_thread_running : Bool
  tx_cmd_queue : List fm_command_header_t
  rx_event_queue : List fm_event_header_t
  /-- Modelled from the spec: the declared type of `command_credits` is in
  fm_hci.h, which is not part of the sources.  The spec calls it a single
  integer and states its non-negativity as an invariant; it is an unbounded
  integer here, so that non-negativity is something to prove and not a property
  of the type. -/
  command_credits : Int
  cb : Option fm_hci_callbacks_t
  tx_thread_ : tx_point
  rx_thread_ : rx_point
deriving DecidableEq, Repr

/-- The whole program state: the record `hci`, the global service handle
`fmHci`, and the observation logs. -/
structure Machine where
  hci : fm_hci_t
  /-- the handle `fmHci` is non-null -/
  fmHci : Bool
  /-- log: arguments of the calls of `hci_transmit`, oldest first -/
  transmit_calls : List fm_command_header_t
  /-- log: arguments of the calls of `fmHci->sendHciCommand`, oldest first -/
  sent : List fm_command_header_t
  /-- log: arguments of the calls of `hci.cb->process_event`, oldest first -/
  dispatched : List fm_event_header_t
  /-- log: sum of the values added by `hci.command_credits += ...` -/
  credits_added : Int
  /-- log: number of calls of `hci.cb->fm_hci_close_done` -/
  close_done_calls : Nat
  /-- log: the values assigned to `hci.state`, oldest first -/
  state_writes : List fm_power_state_t
deriving DecidableEq, Repr

/-- The assignment `hci.state = st`. -/
def set_state (st : fm_power_state_t) (m : Machine) : Machine :=
  { m with hci.state := st, state_writes := m.state_writes ++ [st] }

/-! ## Condition variables -/

/-- The call `hci.tx_cond.notify_all()`: a transmit worker blocked in
`hci.tx_cond.wait` wakes up and calls `dequeue_fm_tx_cmd`; otherwise the
notification has no effect. -/
def notify_tx_cond (m : Machine) : Machine :=
  match m.hci.tx_thread_ with
  | .wait_cmd => { m with hci.tx_thread_ := .drain_head }
  | _ => m

/-- The call `hci.rx_cond.notify_all()`. -/
def notify_rx_cond (m : Machine) : Machine :=
  match m.hci.rx_thread_ with
  | .wait_evt => { m with hci.rx_thread_ := .drain_head }
  | _ => m

/-! ## Transmit path -/

/-- Function `hci_transmit`: forwards the command to the service when the
handle is non-null, then frees it. -/
def hci_transmit (hdr : fm_command_header_t) (m : Machine) : Machine :=
  let m1 := if m.fmHci then { m with sent := m.sent ++ [hdr] } else m
  { m1 with transmit_calls := m1.transmit_calls ++ [hdr] }

/-- Function `enqueue_fm_tx_cmd`. -/
def enqueue_fm_tx_cmd (hdr : fm_command_header_t) (m : Machine) : fm_hc_status × Machine :=
  let m1 := { m with hci.tx_cmd_queue := m.hci.tx_cmd_queue ++ [hdr] }
  let m2 := if m1.hci.is_tx_processing == false then notify_tx_cond m1 else m1
  (.FM_HC_STATUS_SUCCESS, m2)

/-- One critical section of `dequeue_fm_tx_cmd`.

At `drain_head`: the queue section (empty: clear `is_tx_processing` and return
to the caller; otherwise set it, pop the front).  At `credit_gate hdr`: the
credit section (`while (hci.command_credits == 0) wait`; then decrement and
`hci_transmit(hdr)`); with a zero counter the thread stays blocked. -/
def dequeue_fm_tx_cmd_step (m : Machine) : Machine :=
  match m.hci.tx_thread_ with
  | .drain_head =>
    match m.hci.tx_cmd_queue with
    | [] => { m with hci.is_tx_processing := false, hci.tx_thread_ := .loop_cond }
    | hdr :: rest =>
      { m with hci.is_tx_processing := true, hci.tx_cmd_queue := rest,
               hci.tx_thread_ := .credit_gate hdr }
  | .credit_gate hdr =>
    if m.hci.command_credits == 0 then m
    else
      let m1 := { m with hci.command_credits := m.hci.command_credits - 1 }
      let m2 := hci_transmit hdr m1
      { m2 with hci.tx_thread_ := .drain_head }
  | _ => m

/-- Function `dequeue_fm_tx_cmd`, run from its entry with no other thread
interleaved, until it returns (`tx_thread_ = loop_cond`) or blocks at the credit
gate.  Each command takes two sections and the return takes one. -/
def dequeue_fm_tx_cmd (m : Machine) : Machine :=
  Nat.iterate dequeue_fm_tx_cmd_step (2 * m.hci.tx_cmd_queue.length + 1)
    { m with hci.tx_thread_ := .drain_head }

/-- The transmit drain resumed where it stands (blocked at the credit gate, or
anywhere else), run until it returns or blocks again. -/
def dequeue_fm_tx_cmd_resume (m : Machine) : Machine :=
  Nat.iterate dequeue_fm_tx_cmd_step (2 * m.hci.tx_cmd_queue.length + 2) m

/-- One step of the thread function `hci_tx_thread`. -/
def hci_tx_thread_step (m : Machine) : Machine :=
  match m.hci.tx_thread_ with
  | .spawned => { m with hci.is_tx_thread_running := true, hci.tx_thread_ := .loop_cond }
  | .loop_cond =>
    if m.hci.state != .FM_RADIO_DISABLING && m.hci.state != .FM_RADIO_DISABLED then
      { m with hci.tx_thread_ := .wait_cmd }
    else
      { m with hci.is_tx_thread_running := false, hci.tx_thread_ := .exited }
  | .drain_head => dequeue_fm_tx_cmd_step m
  | .credit_gate _ => dequeue_fm_tx_cmd_step m
  | .wait_cmd => m
  | .exited => m
  | .no_thread => m

/-! ## Receive path -/

/-- Function `enqueue_fm_rx_event`. -/
def enqueue_fm_rx_event (hdr : fm_event_header_t) (m : Machine) : fm_hc_status × Machine :=
  let m1 := { m with hci.rx_event_queue := m.hci.rx_event_queue ++ [hdr] }
  let m2 := if m1.hci.is_rx_processing == false then notify_rx_cond m1 else m1
  (.FM_HC_STATUS_SUCCESS, m2)

/-- The statement `hci.command_credits += n` (followed in the code by
`hci.cmd_credits_cond.notify_all()`, which lets a transmit worker blocked at
the credit gate test the counter again). -/
def add_credits (n : Nat) (m : Machine) : Machine :=
  { m with hci.command_credits := m.hci.command_credits + n,
           credits_added := m.credits_added + n }

/-- The credit section of `dequeue_fm_rx_event` for the event `evt_buf`
(between `hci.credit_mtx.lock()` and `hci.credit_mtx.unlock()`). -/
def credit_section (K : EventCodes) (evt_buf : fm_event_header_t) (m : Machine) : Machine :=
  if evt_buf.evt_code == K.FM_CMD_COMPLETE then add_credits (evt_buf.param 0) m
  else if evt_buf.evt_code == K.FM_CMD_STATUS then add_credits (evt_buf.param 1) m
  else if evt_buf.evt_code == K.FM_HW_ERR_EVENT then m
  else m

/-- The client dispatch of `dequeue_fm_rx_event`:
`if (hci.cb && hci.cb->process_event) hci.cb->process_event(NULL, evt_buf)`. -/
def dispatch_event (evt_buf : fm_event_header_t) (m : Machine) : Machine :=
  match m.hci.cb with
  | some cb => if cb.process_event then { m with dispatched := m.dispatched ++ [evt_buf] } else m
  | none => m

/-- One section of `dequeue_fm_rx_event`.

At `drain_head`: the queue section.  At `process evt_buf`: the credit section,
the client dispatch and the release of the event. -/
def dequeue_fm_rx_event_step (K : EventCodes) (m : Machine) : Machine :=
  match m.hci.rx_thread_ with
  | .drain_head =>
    match m.hci.rx_event_queue with
    | [] => { m with hci.is_rx_processing := false, hci.rx_thread_ := .loop_cond }
    | evt_buf :: rest =>
      { m with hci.is_rx_processing := true, hci.rx_event_queue := rest,
               hci.rx_thread_ := .process evt_buf }
  | .process evt_buf =>
    let m1 := credit_section K evt_buf m
    let m2 := dispatch_event evt_buf m1
    { m2 with hci.rx_thread_ := .drain_head }
  | _ => m

/-- Function `dequeue_fm_rx_event`, run from its entry with no other thread
interleaved, until it returns (`rx_thread_ = loop_cond`). -/
def dequeue_fm_rx_event (K : EventCodes) (m : Machine) : Machine :=
  Nat.iterate (dequeue_fm_rx_event_step K) (2 * m.hci.rx_event_queue.length + 1)
    { m with hci.rx_thread_ := .drain_head }

/-- One step of the thread function `hci_rx_thread`. -/
def hci_rx_thread_step (K : EventCodes) (m : Machine) : Machine :=
  match m.hci.rx_thread_ with
  | .spawned => { m with hci.is_rx_thread_running := true, hci.rx_thread_ := .loop_cond }
  | .loop_cond =>
    if m.hci.state != .FM_RADIO_DISABLING && m.hci.state != .FM_RADIO_DISABLED then
      { m with hci.rx_thread_ := .wait_evt }
    else
      { m with hci.is_rx_thread_running := false, hci.rx_thread_ := .exited }
  | .drain_head => dequeue_fm_rx_event_step K m
  | .process _ => dequeue_fm_rx_event_step K m
  | .wait_evt => m
  | .exited => m
  | .no_thread => m

/-! ## Worker threads: start, join, stop -/

/-- Function `start_tx_thread`.  Whether the created thread object is joinable
is given by the environment. -/
def start_tx_thread (joinable : Bool) (m : Machine) : fm_hc_status × Machine :=
  if joinable then (.FM_HC_STATUS_SUCCESS, { m with hci.tx_thread_ := .spawned })
  else (.FM_HC_STATUS_FAIL, { m with hci.tx_thread_ := .no_thread })

/-- Function `start_rx_thread`. -/
def start_rx_thread (joinable : Bool) (m : Machine) : fm_hc_status × Machine :=
  if joinable then (.FM_HC_STATUS_SUCCESS, { m with hci.rx_thread_ := .spawned })
  else (.FM_HC_STATUS_FAIL, { m with hci.rx_thread_ := .no_thread })

/-- The call `hci.tx_thread_.join()`: the caller waits until `hci_tx_thread`
has returned.  The worker is run alone; when it reaches `exited` the thread
object is released, and when it blocks (or no thread is attached) the join does
not return.  From any point the worker needs at most two steps per queued
command and four more to exit or block. -/
def join_tx_thread (m : Machine) : Option Machine :=
  let m1 := Nat.iterate hci_tx_thread_step (2 * m.hci.tx_cmd_queue.length + 4) m
  match m1.hci.tx_thread_ with
  | .exited => some { m1 with hci.tx_thread_ := .no_thread }
  | _ => none

/-- The call `hci.rx_thread_.join()`. -/
def join_rx_thread (K : EventCodes) (m : Machine) : Option Machine :=
  let m1 := Nat.iterate (hci_rx_thread_step K) (2 * m.hci.rx_event_queue.length + 4) m
  match m1.hci.rx_thread_ with
  | .exited => some { m1 with hci.rx_thread_ := .no_thread }
  | _ => none

/-- Function `stop_tx_thread`. -/
def stop_tx_thread (m : Machine) : Option Machine :=
  let m1 := if m.hci.is_tx_processing == false then notify_tx_cond m else m
  join_tx_thread m1

/-- Function `stop_rx_thread`. -/
def stop_rx_thread (K : EventCodes) (m : Machine) : Option Machine :=
  let m1 := if m.hci.is_rx_processing == false then notify_rx_cond m else m
  join_rx_thread K m1

/-- Function `cleanup_threads`. -/
def cleanup_threads (K : EventCodes) (m : Machine) : Option Machine :=
  match stop_rx_thread K m with
  | none => none
  | some m1 => stop_tx_thread m1

/-! ## Lifecycle -/

/-- What the surroundings of one call of `fm_hci_init` do. -/
structure InitEnv where
  /-- `IFmHci::getService()` returns a non-null handle -/
  service : Bool
  /-- the `initializationComplete` callback that the service makes:
  `some b` with `b = (status == Status::SUCCESS)`, or `none` when no callback
  is seen by the call: none is made, or it runs after `fm_hci_init` has tested
  the state and before the caller blocks in `hci.on_cond.wait`, so that its
  `notify_all` wakes nobody -/
  init_status : Option Bool
  /-- when that callback runs: `true` when it has run before `fm_hci_init`
  tests `hci.state == FM_RADIO_ENABLING` (for instance from within
  `fmHci->initialize(callbacks)`), so that its `notify_all` finds no waiter;
  `false` when it runs while `fm_hci_init` is blocked in `hci.on_cond.wait` -/
  callback_early : Bool
  /-- the thread object created by `start_tx_thread` is joinable -/
  tx_joinable : Bool
  /-- the thread object created by `start_rx_thread` is joinable -/
  rx_joinable : Bool
  /-- steps the transmit and the receive worker take before the first test of
  the two running flags -/
  head_start : Nat × Nat
  /-- steps the two workers take during each successive `usleep(5000)` -/
  sleeps : List (Nat × Nat)
deriving DecidableEq, Repr

/-- Function `initialization_complete`.  The final `hci.on_cond.notify_all()`
is what ends the wait of `fm_hci_init`. -/
def initialization_complete (K : EventCodes) (env : InitEnv) ( is_hci_initialize : Bool)
    (m : Machine) : Option Machine :=
  if is_hci_initialize then
    let r1 := start_tx_thread env.tx_joinable m
    if r1.1.nonzero then
      match cleanup_threads K r1.2 with
      | none => none
      | some m1 => some (set_state .FM_RADIO_DISABLING m1)
    else
      let r2 := start_rx_thread env.rx_joinable r1.2
      if r2.1.nonzero then
        match cleanup_threads K r2.2 with
        | none => none
        | some m2 => some (set_state .FM_RADIO_DISABLING m2)
      else
        some (set_state .FM_RADIO_ENABLED r2.2)
  else
    some m

/-- Callback `FmHciCallbacks::initializationComplete`; `status_ok` tells whether
`status == Status::SUCCESS`. -/
def FmHciCallbacks.initializationComplete (K : EventCodes) (env : InitEnv) (status_ok : Bool)
    (m : Machine) : Option Machine :=
  if status_ok then initialization_complete K env true m
  else initialization_complete K env false m

/-- Callback `FmHciCallbacks::hciEventReceived`; `alloc_ok` tells whether
`malloc` returned a buffer for the copy of the event. -/
def FmHciCallbacks.hciEventReceived (alloc_ok : Bool) (event : fm_event_header_t)
    (m : Machine) : Machine :=
  if alloc_ok then (enqueue_fm_rx_event event m).2 else m

/-- Function `hci_initialize`.  The call `fmHci->initialize(callbacks)` hands the
callback object to the service; the `initializationComplete` callback that
the service makes in answer runs on a thread of the service, and `fm_hci_init`
places it where `InitEnv.callback_early` says. -/
def hci_initialize (env : InitEnv) (m : Machine) : Bool × Machine :=
  let m1 := { m with fmHci := env.service }
  if m1.fmHci then (true, set_state .FM_RADIO_ENABLING m1)
  else (false, m1)

/-- Function `hci_close`. -/
def hci_close (m : Machine) : Machine :=
  if m.fmHci then { m with fmHci := false } else m

/-- The two workers advance by the given numbers of steps. -/
def run_workers (K : EventCodes) (t : Nat × Nat) (m : Machine) : Machine :=
  Nat.iterate (hci_rx_thread_step K) t.2 (Nat.iterate hci_tx_thread_step t.1 m)

/-- The polling loop of `fm_hci_init`:
`while (is_tx_thread_running == false || is_rx_thread_running == false) usleep(5000);`.
The list holds what the workers do during each sleep; when it is used up and a
flag is still false the loop has not ended. -/
def poll_threads_running (K : EventCodes) : List (Nat × Nat) → Machine → Option Machine
  | [], m =>
    if m.hci.is_tx_thread_running == false || m.hci.is_rx_thread_running == false then none
    else some m
  | t :: rest, m =>
    if m.hci.is_tx_thread_running == false || m.hci.is_rx_thread_running == false then
      poll_threads_running K rest (run_workers K t m)
    else some m

/-- The record `hci` after `memset(&hci, 0, ...)` and the assignments that
follow it in `fm_hci_init`, up to `hci.is_rx_thread_running = false`. -/
def hci_reset (cb : Option fm_hci_callbacks_t) : fm_hci_t :=
  { state := .FM_RADIO_DISABLED
    is_tx_processing := false
    is_rx_processing := false
    is_tx_thread_running := false
    is_rx_thread_running := false
    tx_cmd_queue := []
    rx_event_queue := []
    command_credits := 1
    cb := cb
    tx_thread_ := .no_thread
    rx_thread_ := .no_thread }

/-- Function `fm_hci_init`.  The result is `none` when the call does not
return.  The assignment `hci_hal->hci = &hci` stores the address of the record
in the caller's table and has no counterpart here.

`early` is the state at the test `hci.state == FM_RADIO_ENABLING`: the
callback, which runs on a thread of the service, may have run by then.  The
thread that finds the state still `FM_RADIO_ENABLING` blocks in
`hci.on_cond.wait`; only a callback that runs from then on wakes it. -/
def fm_hci_init (K : EventCodes) (env : InitEnv) (hci_hal : Option fm_hci_hal_t)
    (m : Machine) : Option (fm_hc_status × Machine) :=
  match hci_hal with
  | none => some (.FM_HC_STATUS_NULL_POINTER, m)
  | some h =>
    if !h.hal then some (.FM_HC_STATUS_NULL_POINTER, m)
    else
      let m0 := set_state .FM_RADIO_DISABLED { m with hci := hci_reset h.cb }
      let r := hci_initialize env m0
      let waited : Option Machine :=
        if r.1 then
          let early : Option Machine :=
            if env.callback_early then
              match env.init_status with
              | none => some r.2
              | some b => FmHciCallbacks.initializationComplete K env b r.2
            else some r.2
          match early with
          | none => none
          | some m1 =>
            if m1.hci.state == .FM_RADIO_ENABLING then
              if env.callback_early then none
              else
                match env.init_status with
                | none => none
                | some b => FmHciCallbacks.initializationComplete K env b m1
            else some m1
        else some r.2
      match waited with
      | none => none
      | some m2 =>
        if m2.hci.state == .FM_RADIO_ENABLED then
          match poll_threads_running K env.sleeps (run_workers K env.head_start m2) with
          | none => none
          | some m3 => some (.FM_HC_STATUS_SUCCESS, m3)
        else
          some (.FM_HC_STATUS_FAIL, set_state .FM_RADIO_DISABLED (hci_close m2))

/-- Function `fm_hci_transmit`; `hdr = none` is the null pointer. -/
def fm_hci_transmit (hdr : Option fm_command_header_t) (m : Machine) : fm_hc_status × Machine :=
  match hdr with
  | none => (.FM_HC_STATUS_NULL_POINTER, m)
  | some h => enqueue_fm_tx_cmd h m

/-- The call of the client callback in `fm_hci_close`:
`if (hci.cb && hci.cb->fm_hci_close_done) hci.cb->fm_hci_close_done()`. -/
def notify_close_done (m : Machine) : Machine :=
  match m.hci.cb with
  | some cb =>
    if cb.fm_hci_close_done then { m with close_done_calls := m.close_done_calls + 1 } else m
  | none => m

/-- Function `fm_hci_close`.  The result is `none` when the call does not
return. -/
def fm_hci_close (m : Machine) : Option Machine :=
  let m1 := set_state .FM_RADIO_DISABLING m
  let m2 := hci_close m1
  match stop_tx_thread m2 with
  | none => none
  | some m3 => some (set_state .FM_RADIO_DISABLED (notify_close_done m3))

/-! ## Sessions -/

/-- The program state before the first call of `fm_hci_init`: the static record
is zero and the service handle is null. -/
def boot : Machine :=
  { hci :=
      { state := .FM_RADIO_DISABLED
        is_tx_processing := false
        is_rx_processing := false
        is_tx_thread_running := false
        is_rx_thread_running := false
        tx_cmd_queue := []
        rx_event_queue := []
        command_credits := 0
        cb := none
        tx_thread_ := .no_thread
        rx_thread_ := .no_thread }
    fmHci := false
    transmit_calls := []
    sent := []
    dispatched := []
    credits_added := 0
    close_done_calls := 0
    state_writes := [] }

/-- The commands `cmds` are passed to `fm_hci_transmit` one after the other. -/
def transmit_all (cmds : List fm_command_header_t) (m : Machine) : Machine :=
  cmds.foldl (fun acc hdr => (fm_hci_transmit (some hdr) acc).2) m

/-- The events `evts` are passed to `enqueue_fm_rx_event` one after the
other. -/
def receive_all (evts : List fm_event_header_t) (m : Machine) : Machine :=
  evts.foldl (fun acc hdr => (enqueue_fm_rx_event hdr acc).2) m

/-- One transition of a running session: the client enqueues a command, the
service delivers an event, or one of the two workers executes one step. -/
inductive Step (K : EventCodes) : Machine → Machine → Prop where
  | transmit (hdr : fm_command_header_t) (m : Machine) :
      Step K m (fm_hci_transmit (some hdr) m).2
  | receive (hdr : fm_event_header_t) (m : Machine) :
      Step K m (enqueue_fm_rx_event hdr m).2
  | tx (m : Machine) : Step K m (hci_tx_thread_step m)
  | rx (m : Machine) : Step K m (hci_rx_thread_step K m)

/-- The states a session reaches from `m0`. -/
inductive Reachable (K : EventCodes) (m0 : Machine) : Machine → Prop where
  | start : Reachable K m0 m0
  | step {m m' : Machine} : Reachable K m0 m → Step K m m' → Reachable K m0 m'

/-! ## Derived notions used in the statements -/

/-- The number of credits the event carries: what the credit section of
`dequeue_fm_rx_event` adds to `hci.command_credits` for it. -/
def credit_value (K : EventCodes) (evt_buf : fm_event_header_t) : Nat :=
  if evt_buf.evt_code == K.FM_CMD_COMPLETE then evt_buf.param 0
  else if evt_buf.evt_code == K.FM_CMD_STATUS then evt_buf.param 1
  else 0

/-- Credit bookkeeping of the state `m` relative to an earlier state `m0`: the
counter is not negative, the counter plus the calls of `hci_transmit` made
since `m0` equals the counter of `m0` plus the credits added since `m0`, and
no more commands went to the service than to `hci_transmit`. -/
def CreditInv (m0 m : Machine) : Prop :=
  0 ≤ m.hci.command_credits ∧
  m.hci.command_credits + m.transmit_calls.length
    = m0.hci.command_credits + m0.transmit_calls.length + (m.credits_added - m0.credits_added) ∧
  m.sent.length + m0.transmit_calls.length ≤ m.transmit_calls.length + m0.sent.length

/-- Both workers report themselves running: the negation of the condition of
the polling loop of `fm_hci_init`. -/
def both_running (m : Machine) : Bool :=
  !(m.hci.is_tx_thread_running == false || m.hci.is_rx_thread_running == false)

/-- The state after the first `k` sleeps of the polling loop, started in `m`. -/
def workers_after (K : EventCodes) (sleeps : List (Nat × Nat)) (k : Nat) (m : Machine) : Machine :=
  (sleeps.take k).foldl (fun acc t => run_workers K t acc) m

/-- The state left by the initialization callback of status `b` when it runs
in the state that `hci_initialize` leaves with a reachable service.  It is the
state in which `fm_hci_init` goes on after its wait, or without waiting when
the callback has run earlier and has moved the state on. -/
def after_wait (K : EventCodes) (env : InitEnv) (hal : fm_hci_hal_t) (b : Bool) (m : Machine) :
    Option Machine :=
  FmHciCallbacks.initializationComplete K env b
    (set_state .FM_RADIO_ENABLING
      { set_state .FM_RADIO_DISABLED { m with hci := hci_reset hal.cb } with fmHci := true })

/-! ## Schedules -/

/-- What can happen next in a running session. -/
inductive Action where
  /-- the client calls `fm_hci_transmit` with the command -/
  | transmit (hdr : fm_command_header_t)
  /-- the service delivers the event, which `enqueue_fm_rx_event` queues -/
  | receive (hdr : fm_event_header_t)
  /-- the transmit worker executes one step -/
  | tx
  /-- the receive worker executes one step -/
  | rx
deriving DecidableEq, Repr

/-- The state after the action. -/
def Action.apply (K : EventCodes) : Action → Machine → Machine
  | .transmit hdr, m => (fm_hci_transmit (some hdr) m).2
  | .receive hdr, m => (enqueue_fm_rx_event hdr m).2
  | .tx, m => hci_tx_thread_step m
  | .rx, m => hci_rx_thread_step K m

/-- The state after the actions of the schedule, in order. -/
def run_schedule (K : EventCodes) (acts : List Action) (m : Machine) : Machine :=
  acts.foldl (fun acc a => a.apply K acc) m

/-- The commands the schedule passes to `fm_hci_transmit`, in order. -/
def commands_of : List Action → List fm_command_header_t
  | [] => []
  | .transmit hdr :: rest => hdr :: commands_of rest
  | _ :: rest => commands_of rest

/-- The events the schedule passes to `enqueue_fm_rx_event`, in order. -/
def events_of : List Action → List fm_event_header_t
  | [] => []
  | .receive hdr :: rest => hdr :: events_of rest
  | _ :: rest => events_of rest

/-- The commands accepted and not yet handed to `hci_transmit`: the one the
transmit worker holds at the credit gate, then the queue. -/
def tx_pending (m : Machine) : List fm_command_header_t :=
  (match m.hci.tx_thread_ with
    | .credit_gate hdr => [hdr]
    | _ => []) ++ m.hci.tx_cmd_queue

/-- The events accepted and not yet processed: the one the receive worker
holds, then the queue. -/
def rx_pending (m : Machine) : List fm_event_header_t :=
  (match m.hci.rx_thread_ with
    | .process evt_buf => [evt_buf]
    | _ => []) ++ m.hci.rx_event_queue

/-! ## Locks held by the workers -/

/-- The mutexes of the record `hci` that the two workers lock. -/
inductive Mutex where
  | tx_queue_mtx
  | rx_queue_mtx
  | credit_mtx
  | tx_cond_mtx
  | rx_cond_mtx
deriving DecidableEq, Repr

/-- The two outward calls of the workers, with their argument. -/
inductive Callee where
  | hci_transmit (hdr : fm_command_header_t)
  | process_event (evt_buf : fm_event_header_t)
deriving DecidableEq, Repr

/-- What a worker does to its locks, and the outward calls it makes, in the
order of the source. -/
inductive Op where
  /-- `x.lock()`, the construction of a `Lock` on `x`, or the return of a
  condition wait that was entered with `x` -/
  | lock (x : Mutex)
  /-- `x.unlock()`, the destruction of a `Lock` on `x` at the end of its scope,
  or the entry of a condition wait with `x` -/
  | unlock (x : Mutex)
  | call (c : Callee)
deriving DecidableEq, Repr

/-- An outward call together with the locks the calling worker holds when it
makes it. -/
structure Call where
  callee : Callee
  held : List Mutex
deriving DecidableEq, Repr

/-- Runs the operations of one worker: the first component is the list of
locks the worker holds, the second the calls made so far. -/
def exec_ops : List Op → List Mutex × List Call → List Mutex × List Call
  | [], s => s
  | .lock x :: rest, s => exec_ops rest (s.1 ++ [x], s.2)
  | .unlock x :: rest, s => exec_ops rest (s.1.erase x, s.2)
  | .call c :: rest, s => exec_ops rest (s.1, s.2 ++ [{ callee := c, held := s.1 }])

/-- The lock operations and outward calls of the step `hci_tx_thread_step m`.

`loop_cond`: `Lock lk(hci.tx_cond_mtx); hci.tx_cond.wait(lk)`, the wait
releasing the mutex.  `drain_head`: the queue section under `tx_queue_mtx`;
when the queue is empty `dequeue_fm_tx_cmd` returns and the `Lock` on
`tx_cond_mtx` of the thread loop goes out of scope.  `credit_gate hdr`:
`Lock lk(hci.credit_mtx)`, the wait releasing it while the counter is zero;
otherwise the decrement and `hci_transmit(hdr)`, after which `lk` goes out of
scope at the end of the loop body. -/
def tx_ops (m : Machine) : List Op :=
  match m.hci.tx_thread_ with
  | .loop_cond =>
    if m.hci.state != .FM_RADIO_DISABLING && m.hci.state != .FM_RADIO_DISABLED then
      [.lock .tx_cond_mtx, .unlock .tx_cond_mtx]
    else []
  | .drain_head =>
    match m.hci.tx_cmd_queue with
    | [] => [.lock .tx_queue_mtx, .unlock .tx_queue_mtx, .unlock .tx_cond_mtx]
    | _ :: _ => [.lock .tx_queue_mtx, .unlock .tx_queue_mtx]
  | .credit_gate hdr =>
    if m.hci.command_credits == 0 then [.lock .credit_mtx, .unlock .credit_mtx]
    else [.lock .credit_mtx, .call (.hci_transmit hdr), .unlock .credit_mtx]
  | _ => []

/-- The lock operations and outward calls of the step `hci_rx_thread_step K m`.

`process evt_buf`: `hci.credit_mtx.lock()`, the credit update,
`hci.credit_mtx.unlock()`, then the call of `process_event` when it is
registered. -/
def rx_ops (m : Machine) : List Op :=
  match m.hci.rx_thread_ with
  | .loop_cond =>
    if m.hci.state != .FM_RADIO_DISABLING && m.hci.state != .FM_RADIO_DISABLED then
      [.lock .rx_cond_mtx, .unlock .rx_cond_mtx]
    else []
  | .drain_head =>
    match m.hci.rx_event_queue with
    | [] => [.lock .rx_queue_mtx, .unlock .rx_queue_mtx, .unlock .rx_cond_mtx]
    | _ :: _ => [.lock .rx_queue_mtx, .unlock .rx_queue_mtx]
  | .process evt_buf =>
    [.lock .credit_mtx, .unlock .credit_mtx] ++
      (match m.hci.cb with
        | some cb => if cb.process_event then [.call (.process_event evt_buf)] else []
        | none => [])
  | _ => []

/-- A notification wakes the transmit worker: `hci.tx_cond.wait(lk)` returns
with `tx_cond_mtx` locked again. -/
def tx_wake_ops (before after : Machine) : List Op :=
  match before.hci.tx_thread_, after.hci.tx_thread_ with
  | .wait_cmd, .drain_head => [.lock .tx_cond_mtx]
  | _, _ => []

/-- A notification wakes the receive worker: `hci.rx_cond.wait(lk)` returns
with `rx_cond_mtx` locked again. -/
def rx_wake_ops (before after : Machine) : List Op :=
  match before.hci.rx_thread_, after.hci.rx_thread_ with
  | .wait_evt, .drain_head => [.lock .rx_cond_mtx]
  | _, _ => []

/-- The program state together with the locks each worker holds and the
outward calls made so far. -/
structure LockedMachine where
  m : Machine
  tx_held : List Mutex
  rx_held : List Mutex
  calls : List Call
deriving DecidableEq, Repr

/-- The action `a` on the program state, with the lock operations and calls it
brings about. -/
def LockedMachine.apply (K : EventCodes) (a : Action) (L : LockedMachine) : LockedMachine :=
  match a with
  | .tx =>
    { m := a.apply K L.m
      tx_held := (exec_ops (tx_ops L.m) (L.tx_held, L.calls)).1
      rx_held := L.rx_held
      calls := (exec_ops (tx_ops L.m) (L.tx_held, L.calls)).2 }
  | .rx =>
    { m := a.apply K L.m
      tx_held := L.tx_held
      rx_held := (exec_ops (rx_ops L.m) (L.rx_held, L.calls)).1
      calls := (exec_ops (rx_ops L.m) (L.rx_held, L.calls)).2 }
  | .transmit _ =>
    { m := a.apply K L.m
      tx_held := (exec_ops (tx_wake_ops L.m (a.apply K L.m)) (L.tx_held, L.calls)).1
      rx_held := L.rx_held
      calls := L.calls }
  | .receive _ =>
    { m := a.apply K L.m
      tx_held := L.tx_held
      rx_held := (exec_ops (rx_wake_ops L.m (a.apply K L.m)) (L.rx_held, L.calls)).1
      calls := L.calls }

/-- The schedule run with the locks tracked. -/
def run_locked (K : EventCodes) (acts : List Action) (L : LockedMachine) : LockedMachine :=
  acts.foldl (fun acc a => acc.apply K a) L

/-- A session starting in `m` with neither worker holding a lock and no call
made yet. -/
def unlocked (m : Machine) : LockedMachine :=
  { m := m, tx_held := [], rx_held := [], calls := [] }

/-- The transmit worker stands outside `dequeue_fm_tx_cmd`. -/
def tx_outside_drain (m : Machine) : Bool :=
  match m.hci.tx_thread_ with
  | .drain_head => false
  | .credit_gate _ => false
  | _ => true

/-- The receive worker stands outside `dequeue_fm_rx_event`. -/
def rx_outside_drain (m : Machine) : Bool :=
  match m.hci.rx_thread_ with
  | .drain_head => false
  | .process _ => false
  | _ => true

/-- The arguments of the calls of `hci_transmit` among the calls, in order. -/
def transmit_args : List Call → List fm_command_header_t
  | [] => []
  | { callee := .hci_transmit hdr, held := _ } :: rest => hdr :: transmit_args rest
  | _ :: rest => transmit_args rest

/-- The arguments of the calls of `process_event` among the calls, in order. -/
def dispatch_args : List Call → List fm_event_header_t
  | [] => []
  | { callee := .process_event e, held := _ } :: rest => e :: dispatch_args rest
  | _ :: rest => dispatch_args rest

/-- The locks with which the code makes the call: `hci_transmit` under the
transmit worker's `tx_cond_mtx` and `credit_mtx`, `process_event` under the
receive worker's `rx_cond_mtx` alone. -/
def call_held_exact (c : Call) : Prop :=
  match c.callee with
  | .hci_transmit _ => c.held = [.tx_cond_mtx, .credit_mtx]
  | .process_event _ => c.held = [.rx_cond_mtx]

/-- Lock bookkeeping of a session that started in `m0`: each worker holds its
wake-signal mutex exactly while it is inside its drain, every call was made
with the locks of `call_held_exact`, and the calls are the ones the logs of the
program state record. -/
def LockInv (m0 : Machine) (L : LockedMachine) : Prop :=
  L.tx_held = (if tx_outside_drain L.m then [] else [.tx_cond_mtx]) ∧
  L.rx_held = (if rx_outside_drain L.m then [] else [.rx_cond_mtx]) ∧
  (∀ c ∈ L.calls, call_held_exact c) ∧
  L.m.transmit_calls = m0.transmit_calls ++ transmit_args L.calls ∧
  L.m.dispatched = m0.dispatched ++ dispatch_args L.calls

/-! ## Concrete data for the examples -/

/-- Three distinct event codes. -/
def sample_codes : EventCodes :=
  { FM_CMD_COMPLETE := 0x0f, FM_CMD_STATUS := 0x10, FM_HW_ERR_EVENT := 0x1a }

/-- A client with both callbacks registered. -/
def sample_hal : fm_hci_hal_t :=
  { hal := true, cb := some { process_event := true, fm_hci_close_done := true } }

/-- Surroundings in which the service is reachable, reports a successful
initialization while `fm_hci_init` waits for it, and both workers reach their
wait before the first poll. -/
def sample_env : InitEnv :=
  { service := true, init_status := some true, callback_early := false,
    tx_joinable := true, rx_joinable := true, head_start := (2, 2), sleeps := [] }

/-- The state in which `fm_hci_init` returns for `sample_env` and `sample_hal`
when called in the state `boot`. -/
def sample_session : Machine :=
  { hci :=
      { state := .FM_RADIO_ENABLED
        is_tx_processing := false
        is_rx_processing := false
        is_tx_thread_running := true
        is_rx_thread_running := true
        tx_cmd_queue := []
        rx_event_queue := []
        command_credits := 1
        cb := some { process_event := true, fm_hci_close_done := true }
        tx_thread_ := .wait_cmd
        rx_thread_ := .wait_evt }
    fmHci := true
    transmit_calls := []
    sent := []
    dispatched := []
    credits_added := 0
    close_done_calls := 0
    state_writes := [.FM_RADIO_DISABLED, .FM_RADIO_ENABLING, .FM_RADIO_ENABLED] }

/-- Command with the given opcode and no payload. -/
def sample_cmd (opcode : Nat) : fm_command_header_t :=
  { opcode := opcode, len := 0, params := [] }

/-- The session `sample_session` after one command was enqueued and popped by
the transmit worker, which now stands at the credit gate with one credit. -/
def sample_gate : Machine :=
  hci_tx_thread_step (fm_hci_transmit (some (sample_cmd 7)) sample_session).2

/-- A command-status event whose bytes are `params[0] = 5` and
`params[1] = 3`. -/
def sample_status_event : fm_event_header_t :=
  { evt_code := 0x10, params := [5, 3], beyond := 9 }

/-- The session `sample_session` with the receive worker about to process the
event `sample_status_event`. -/
def sample_processing : Machine :=
  { sample_session with hci.rx_thread_ := .process sample_status_event }

/-- A command-complete event whose byte `params[0]` is 2. -/
def sample_complete_event : fm_event_header_t :=
  { evt_code := 0x0f, params := [2], beyond := 9 }

/-- The session `sample_session` after the event `sample_complete_event` was
delivered and processed by the receive worker: three credits are available. -/
def sample_credited : Machine :=
  dequeue_fm_rx_event sample_codes
    (FmHciCallbacks.hciEventReceived true sample_complete_event sample_session)

/-- Surroundings in which the service cannot be reached. -/
def sample_env_unreachable : InitEnv :=
  { sample_env with service := false }

/-- The state in which `fm_hci_init`, called in the state `boot` for
`sample_hal` with a reachable service, waits for the initialization callback:
the transport state is `Enabling` and no worker exists. -/
def sample_enabling : Machine :=
  set_state .FM_RADIO_ENABLING
    { set_state .FM_RADIO_DISABLED { boot with hci := hci_reset sample_hal.cb } with
      fmHci := true }

/-- Surroundings in which the service is reachable and reports a failed
initialization while `fm_hci_init` waits for it. -/
def sample_env_failure : InitEnv :=
  { sample_env with init_status := some false }

/-- Surroundings in which the service is reachable and reports a failed
initialization before `fm_hci_init` has begun to wait for it. -/
def sample_env_early_failure : InitEnv :=
  { sample_env with init_status := some false, callback_early := true }

/-- Surroundings in which the service is reachable and reports a successful
initialization before `fm_hci_init` has begun to wait for it. -/
def sample_env_early : InitEnv :=
  { sample_env with callback_early := true }

/-- A schedule in the session `sample_session`: one command is enqueued, popped
and sent; one event is delivered, popped and dispatched. -/
def sample_schedule : List Action :=
  [.transmit (sample_cmd 7), .tx, .tx,
    .receive { evt_code := 0x55, params := [], beyond := 0 }, .rx, .rx]

/-! ## Basic facts about the elementary operations -/

@[simp] theorem hci_transmit_hci (hdr : fm_command_header_t) (m : Machine) :
    (hci_transmit hdr m).hci = m.hci := by
  unfold hci_transmit; split <;> rfl

@[simp] theorem hci_transmit_transmit_calls (hdr : fm_command_header_t) (m : Machine) :
    (hci_transmit hdr m).transmit_calls = m.transmit_calls ++ [hdr] := by
  unfold hci_transmit; split <;> rfl

@[simp] theorem hci_transmit_credits_added (hdr : fm_command_header_t) (m : Machine) :
    (hci_transmit hdr m).credits_added = m.credits_added := by
  unfold hci_transmit; split <;> rfl

@[simp] theorem hci_transmit_fmHci (hdr : fm_command_header_t) (m : Machine) :
    (hci_transmit hdr m).fmHci = m.fmHci := by
  unfold hci_transmit; split <;> simp_all

@[simp] theorem hci_transmit_dispatched (hdr : fm_command_header_t) (m : Machine) :
    (hci_transmit hdr m).dispatched = m.dispatched := by
  unfold hci_transmit; split <;> rfl

@[simp] theorem hci_transmit_state_writes (hdr : fm_command_header_t) (m : Machine) :
    (hci_transmit hdr m).state_writes = m.state_writes := by
  unfold hci_transmit; split <;> rfl

theorem hci_transmit_sent (hdr : fm_command_header_t) (m : Machine) :
    (hci_transmit hdr m).sent = if m.fmHci then m.sent ++ [hdr] else m.sent := by
  unfold hci_transmit; split <;> simp_all

@[simp] theorem dispatch_event_hci (e : fm_event_header_t) (m : Machine) :
    (dispatch_event e m).hci = m.hci := by
  unfold dispatch_event; repeat' split
  all_goals rfl

@[simp] theorem dispatch_event_transmit_calls (e : fm_event_header_t) (m : Machine) :
    (dispatch_event e m).transmit_calls = m.transmit_calls := by
  unfold dispatch_event; repeat' split
  all_goals rfl

@[simp] theorem dispatch_event_sent (e : fm_event_header_t) (m : Machine) :
    (dispatch_event e m).sent = m.sent := by
  unfold dispatch_event; repeat' split
  all_goals rfl

@[simp] theorem dispatch_event_credits_added (e : fm_event_header_t) (m : Machine) :
    (dispatch_event e m).credits_added = m.credits_added := by
  unfold dispatch_event; repeat' split
  all_goals rfl

@[simp] theorem dispatch_event_fmHci (e : fm_event_header_t) (m : Machine) :
    (dispatch_event e m).fmHci = m.fmHci := by
  unfold dispatch_event; repeat' split
  all_goals rfl

@[simp] theorem dispatch_event_state_writes (e : fm_event_header_t) (m : Machine) :
    (dispatch_event e m).state_writes = m.state_writes := by
  unfold dispatch_event; repeat' split
  all_goals rfl

theorem dispatch_event_registered (e : fm_event_header_t) (m : Machine)
    (cb : fm_hci_callbacks_t) (hcb : m.hci.cb = some cb) (hpe : cb.process_event = true) :
    (dispatch_event e m).dispatched = m.dispatched ++ [e] := by
  unfold dispatch_event; rw [hcb]; simp [hpe]

theorem credit_section_eq (K : EventCodes) (e : fm_event_header_t) (m : Machine) :
    credit_section K e m = add_credits (credit_value K e) m := by
  unfold credit_section credit_value add_credits
  repeat' split
  all_goals simp

@[simp] theorem credit_section_credits (K : EventCodes) (e : fm_event_header_t) (m : Machine) :
    (credit_section K e m).hci.command_credits = m.hci.command_credits + credit_value K e := by
  rw [credit_section_eq]; rfl

@[simp] theorem credit_section_credits_added (K : EventCodes) (e : fm_event_header_t)
    (m : Machine) :
    (credit_section K e m).credits_added = m.credits_added + credit_value K e := by
  rw [credit_section_eq]; rfl

@[simp] theorem credit_section_transmit_calls (K : EventCodes) (e : fm_event_header_t)
    (m : Machine) : (credit_section K e m).transmit_calls = m.transmit_calls := by
  rw [credit_section_eq]; rfl

@[simp] theorem credit_section_sent (K : EventCodes) (e : fm_event_header_t) (m : Machine) :
    (credit_section K e m).sent = m.sent := by
  rw [credit_section_eq]; rfl

@[simp] theorem credit_section_dispatched (K : EventCodes) (e : fm_event_header_t)
    (m : Machine) : (credit_section K e m).dispatched = m.dispatched := by
  rw [credit_section_eq]; rfl

@[simp] theorem credit_section_fmHci (K : EventCodes) (e : fm_event_header_t) (m : Machine) :
    (credit_section K e m).fmHci = m.fmHci := by
  rw [credit_section_eq]; rfl

@[simp] theorem credit_section_state_writes (K : EventCodes) (e : fm_event_header_t)
    (m : Machine) : (credit_section K e m).state_writes = m.state_writes := by
  rw [credit_section_eq]; rfl

@[simp] theorem credit_section_state (K : EventCodes) (e : fm_event_header_t) (m : Machine) :
    (credit_section K e m).hci.state = m.hci.state := by
  rw [credit_section_eq]; rfl

@[simp] theorem credit_section_cb (K : EventCodes) (e : fm_event_header_t) (m : Machine) :
    (credit_section K e m).hci.cb = m.hci.cb := by
  rw [credit_section_eq]; rfl

@[simp] theorem credit_section_rx_queue (K : EventCodes) (e : fm_event_header_t) (m : Machine) :
    (credit_section K e m).hci.rx_event_queue = m.hci.rx_event_queue := by
  rw [credit_section_eq]; rfl

@[simp] theorem credit_section_tx_thread (K : EventCodes) (e : fm_event_header_t)
    (m : Machine) : (credit_section K e m).hci.tx_thread_ = m.hci.tx_thread_ := by
  rw [credit_section_eq]; rfl

@[simp] theorem credit_section_tx_queue (K : EventCodes) (e : fm_event_header_t)
    (m : Machine) : (credit_section K e m).hci.tx_cmd_queue = m.hci.tx_cmd_queue := by
  rw [credit_section_eq]; rfl

@[simp] theorem credit_section_rx_thread (K : EventCodes) (e : fm_event_header_t)
    (m : Machine) : (credit_section K e m).hci.rx_thread_ = m.hci.rx_thread_ := by
  rw [credit_section_eq]; rfl

/-! ## The credit bookkeeping is kept by every transition -/

theorem creditInv_refl (m : Machine) (h : 0 ≤ m.hci.command_credits) : CreditInv m m := by
  unfold CreditInv; refine ⟨h, ?_, ?_⟩
  · simp
  · omega

theorem creditInv_tx_step (m0 m : Machine) (h : CreditInv m0 m) :
    CreditInv m0 (hci_tx_thread_step m) := by
  obtain ⟨h1, h2, h3⟩ := h
  unfold hci_tx_thread_step dequeue_fm_tx_cmd_step CreditInv
  repeat' split
  all_goals simp_all [hci_transmit_sent]
  all_goals (try split)
  all_goals (try simp)
  all_goals (try omega)

theorem creditInv_rx_step (K : EventCodes) (m0 m : Machine) (h : CreditInv m0 m) :
    CreditInv m0 (hci_rx_thread_step K m) := by
  obtain ⟨h1, h2, h3⟩ := h
  unfold hci_rx_thread_step dequeue_fm_rx_event_step CreditInv
  repeat' split
  all_goals simp_all
  all_goals (try omega)

@[simp] theorem notify_tx_cond_credits (m : Machine) :
    (notify_tx_cond m).hci.command_credits = m.hci.command_credits := by
  unfold notify_tx_cond; split <;> rfl

@[simp] theorem notify_tx_cond_transmit_calls (m : Machine) :
    (notify_tx_cond m).transmit_calls = m.transmit_calls := by
  unfold notify_tx_cond; split <;> rfl

@[simp] theorem notify_tx_cond_sent (m : Machine) : (notify_tx_cond m).sent = m.sent := by
  unfold notify_tx_cond; split <;> rfl

@[simp] theorem notify_tx_cond_credits_added (m : Machine) :
    (notify_tx_cond m).credits_added = m.credits_added := by
  unfold notify_tx_cond; split <;> rfl

@[simp] theorem notify_tx_cond_fmHci (m : Machine) : (notify_tx_cond m).fmHci = m.fmHci := by
  unfold notify_tx_cond; split <;> rfl

@[simp] theorem notify_tx_cond_queue (m : Machine) :
    (notify_tx_cond m).hci.tx_cmd_queue = m.hci.tx_cmd_queue := by
  unfold notify_tx_cond; split <;> rfl

@[simp] theorem notify_tx_cond_state (m : Machine) :
    (notify_tx_cond m).hci.state = m.hci.state := by
  unfold notify_tx_cond; split <;> rfl

@[simp] theorem notify_rx_cond_credits (m : Machine) :
    (notify_rx_cond m).hci.command_credits = m.hci.command_credits := by
  unfold notify_rx_cond; split <;> rfl

@[simp] theorem notify_rx_cond_transmit_calls (m : Machine) :
    (notify_rx_cond m).transmit_calls = m.transmit_calls := by
  unfold notify_rx_cond; split <;> rfl

@[simp] theorem notify_rx_cond_sent (m : Machine) : (notify_rx_cond m).sent = m.sent := by
  unfold notify_rx_cond; split <;> rfl

@[simp] theorem notify_rx_cond_credits_added (m : Machine) :
    (notify_rx_cond m).credits_added = m.credits_added := by
  unfold notify_rx_cond; split <;> rfl

@[simp] theorem notify_rx_cond_dispatched (m : Machine) :
    (notify_rx_cond m).dispatched = m.dispatched := by
  unfold notify_rx_cond; split <;> rfl

@[simp] theorem notify_rx_cond_queue (m : Machine) :
    (notify_rx_cond m).hci.rx_event_queue = m.hci.rx_event_queue := by
  unfold notify_rx_cond; split <;> rfl

@[simp] theorem notify_rx_cond_cb (m : Machine) : (notify_rx_cond m).hci.cb = m.hci.cb := by
  unfold notify_rx_cond; split <;> rfl

@[simp] theorem notify_rx_cond_state (m : Machine) :
    (notify_rx_cond m).hci.state = m.hci.state := by
  unfold notify_rx_cond; split <;> rfl

theorem creditInv_enqueue_tx (m0 m : Machine) (hdr : fm_command_header_t)
    (h : CreditInv m0 m) : CreditInv m0 (enqueue_fm_tx_cmd hdr m).2 := by
  obtain ⟨h1, h2, h3⟩ := h
  simp only [enqueue_fm_tx_cmd, CreditInv]
  split <;> simp_all

theorem creditInv_enqueue_rx (m0 m : Machine) (hdr : fm_event_header_t)
    (h : CreditInv m0 m) : CreditInv m0 (enqueue_fm_rx_event hdr m).2 := by
  obtain ⟨h1, h2, h3⟩ := h
  simp only [enqueue_fm_rx_event, CreditInv]
  split <;> simp_all

theorem creditInv_step (K : EventCodes) (m0 m m' : Machine) (h : CreditInv m0 m)
    (hs : Step K m m') : CreditInv m0 m' := by
  cases hs with
  | transmit hdr => exact creditInv_enqueue_tx m0 m hdr h
  | receive hdr => exact creditInv_enqueue_rx m0 m hdr h
  | tx => exact creditInv_tx_step m0 m h
  | rx => exact creditInv_rx_step K m0 m h

theorem creditInv_reachable (K : EventCodes) (m0 m1 m : Machine) (h : CreditInv m0 m1)
    (hr : Reachable K m1 m) : CreditInv m0 m := by
  induction hr with
  | start => exact h
  | step _ hs ih => exact creditInv_step K m0 _ _ ih hs

/-! ## The transmit drain -/

theorem tx_step_empty (m : Machine) (hp : m.hci.tx_thread_ = .drain_head)
    (hq : m.hci.tx_cmd_queue = []) :
    dequeue_fm_tx_cmd_step m
      = { m with hci.is_tx_processing := false, hci.tx_thread_ := .loop_cond } := by
  simp [dequeue_fm_tx_cmd_step, hp, hq]

theorem tx_step_pop (m : Machine) (hdr : fm_command_header_t)
    (rest : List fm_command_header_t) (hp : m.hci.tx_thread_ = .drain_head)
    (hq : m.hci.tx_cmd_queue = hdr :: rest) :
    dequeue_fm_tx_cmd_step m
      = { m with hci.is_tx_processing := true, hci.tx_cmd_queue := rest,
                 hci.tx_thread_ := .credit_gate hdr } := by
  simp [dequeue_fm_tx_cmd_step, hp, hq]

theorem tx_step_blocked (m : Machine) (hdr : fm_command_header_t)
    (hp : m.hci.tx_thread_ = .credit_gate hdr) (hc : m.hci.command_credits = 0) :
    dequeue_fm_tx_cmd_step m = m := by
  simp [dequeue_fm_tx_cmd_step, hp, hc]

theorem tx_step_send (m : Machine) (hdr : fm_command_header_t)
    (hp : m.hci.tx_thread_ = .credit_gate hdr) (hc : m.hci.command_credits ≠ 0) :
    dequeue_fm_tx_cmd_step m
      = { hci_transmit hdr { m with hci.command_credits := m.hci.command_credits - 1 } with
          hci.tx_thread_ := .drain_head } := by
  simp [dequeue_fm_tx_cmd_step, hp, hc]

theorem tx_step_returned (m : Machine) (hp : m.hci.tx_thread_ = .loop_cond) :
    dequeue_fm_tx_cmd_step m = m := by
  simp [dequeue_fm_tx_cmd_step, hp]

theorem tx_drain_run (q : List fm_command_header_t) :
    ∀ (m : Machine) (extra : Nat), m.hci.tx_thread_ = .drain_head → m.hci.tx_cmd_queue = q →
      (q.length : Int) ≤ m.hci.command_credits →
      (Nat.iterate dequeue_fm_tx_cmd_step (2 * q.length + 1 + extra) m).hci.tx_thread_
          = .loop_cond ∧
      (Nat.iterate dequeue_fm_tx_cmd_step (2 * q.length + 1 + extra) m).hci.tx_cmd_queue = [] ∧
      (Nat.iterate dequeue_fm_tx_cmd_step (2 * q.length + 1 + extra) m).transmit_calls
          = m.transmit_calls ++ q ∧
      (Nat.iterate dequeue_fm_tx_cmd_step (2 * q.length + 1 + extra) m).sent
          = (if m.fmHci then m.sent ++ q else m.sent) ∧
      (Nat.iterate dequeue_fm_tx_cmd_step (2 * q.length + 1 + extra) m).hci.command_credits
          = m.hci.command_credits - q.length := by
  induction q with
  | nil =>
    intro m extra hp hq _
    have e : 2 * ([] : List fm_command_header_t).length + 1 + extra = extra + 1 := by simp; omega
    rw [e, Function.iterate_succ_apply, tx_step_empty m hp hq,
      Function.iterate_fixed (tx_step_returned _ rfl)]
    simp [hq]
  | cons hdr rest ih =>
    intro m extra hp hq hc
    have e : 2 * (hdr :: rest).length + 1 + extra = (2 * rest.length + 1 + extra) + 1 + 1 := by
      simp; omega
    have hc1 : (rest.length : Int) + 1 ≤ m.hci.command_credits := by
      simpa using hc
    rw [e, Function.iterate_succ_apply, Function.iterate_succ_apply, tx_step_pop m hdr rest hp hq,
      tx_step_send _ hdr rfl (by simp; omega)]
    have h := ih ({ hci_transmit hdr
        { ({ m with hci.is_tx_processing := true, hci.tx_cmd_queue := rest,
                    hci.tx_thread_ := .credit_gate hdr } : Machine) with
          hci.command_credits := m.hci.command_credits - 1 } with
        hci.tx_thread_ := .drain_head }) extra rfl (by simp) (by simp; omega)
    obtain ⟨h1, h2, h3, h4, h5⟩ := h
    refine ⟨h1, h2, ?_, ?_, ?_⟩
    · rw [h3]; simp
    · rw [h4]; simp [hci_transmit_sent]
      split <;> simp
    · rw [h5]; simp; omega

theorem transmit_all_frame (cmds : List fm_command_header_t) :
    ∀ m : Machine,
      (transmit_all cmds m).hci.tx_cmd_queue = m.hci.tx_cmd_queue ++ cmds ∧
      (transmit_all cmds m).hci.command_credits = m.hci.command_credits ∧
      (transmit_all cmds m).transmit_calls = m.transmit_calls ∧
      (transmit_all cmds m).sent = m.sent ∧
      (transmit_all cmds m).fmHci = m.fmHci := by
  induction cmds with
  | nil => intro m; simp [transmit_all]
  | cons hdr rest ih =>
    intro m
    have h := ih (fm_hci_transmit (some hdr) m).2
    simp only [transmit_all, List.foldl_cons] at h ⊢
    obtain ⟨h1, h2, h3, h4, h5⟩ := h
    rw [h1, h2, h3, h4, h5]
    simp only [fm_hci_transmit, enqueue_fm_tx_cmd]
    split <;> simp

/-! ## The receive drain -/

theorem rx_step_empty (K : EventCodes) (m : Machine) (hp : m.hci.rx_thread_ = .drain_head)
    (hq : m.hci.rx_event_queue = []) :
    dequeue_fm_rx_event_step K m
      = { m with hci.is_rx_processing := false, hci.rx_thread_ := .loop_cond } := by
  simp [dequeue_fm_rx_event_step, hp, hq]

theorem rx_step_pop (K : EventCodes) (m : Machine) (e : fm_event_header_t)
    (rest : List fm_event_header_t) (hp : m.hci.rx_thread_ = .drain_head)
    (hq : m.hci.rx_event_queue = e :: rest) :
    dequeue_fm_rx_event_step K m
      = { m with hci.is_rx_processing := true, hci.rx_event_queue := rest,
                 hci.rx_thread_ := .process e } := by
  simp [dequeue_fm_rx_event_step, hp, hq]

theorem rx_step_process (K : EventCodes) (m : Machine) (e : fm_event_header_t)
    (hp : m.hci.rx_thread_ = .process e) :
    dequeue_fm_rx_event_step K m
      = { dispatch_event e (credit_section K e m) with hci.rx_thread_ := .drain_head } := by
  simp [dequeue_fm_rx_event_step, hp]

theorem rx_step_returned (K : EventCodes) (m : Machine) (hp : m.hci.rx_thread_ = .loop_cond) :
    dequeue_fm_rx_event_step K m = m := by
  simp [dequeue_fm_rx_event_step, hp]

theorem rx_drain_run (K : EventCodes) (cb : fm_hci_callbacks_t) (hpe : cb.process_event = true)
    (q : List fm_event_header_t) :
    ∀ (m : Machine) (extra : Nat), m.hci.rx_thread_ = .drain_head → m.hci.rx_event_queue = q →
      m.hci.cb = some cb →
      (Nat.iterate (dequeue_fm_rx_event_step K) (2 * q.length + 1 + extra) m).hci.rx_thread_
          = .loop_cond ∧
      (Nat.iterate (dequeue_fm_rx_event_step K) (2 * q.length + 1 + extra) m).hci.rx_event_queue
          = [] ∧
      (Nat.iterate (dequeue_fm_rx_event_step K) (2 * q.length + 1 + extra) m).dispatched
          = m.dispatched ++ q := by
  induction q with
  | nil =>
    intro m extra hp hq _
    have e : 2 * ([] : List fm_event_header_t).length + 1 + extra = extra + 1 := by simp; omega
    rw [e, Function.iterate_succ_apply, rx_step_empty K m hp hq,
      Function.iterate_fixed (rx_step_returned K _ rfl)]
    simp [hq]
  | cons ev rest ih =>
    intro m extra hp hq hcb
    have e : 2 * (ev :: rest).length + 1 + extra = (2 * rest.length + 1 + extra) + 1 + 1 := by
      simp; omega
    rw [e, Function.iterate_succ_apply, Function.iterate_succ_apply, rx_step_pop K m ev rest hp hq,
      rx_step_process K _ ev rfl]
    have hcb2 : (credit_section K ev
        ({ m with hci.is_rx_processing := true, hci.rx_event_queue := rest,
                  hci.rx_thread_ := .process ev } : Machine)).hci.cb = some cb := by
      simp [hcb]
    have h := ih ({ dispatch_event ev (credit_section K ev
        ({ m with hci.is_rx_processing := true, hci.rx_event_queue := rest,
                  hci.rx_thread_ := .process ev } : Machine)) with
        hci.rx_thread_ := .drain_head }) extra rfl (by simp) (by simp [hcb])
    obtain ⟨h1, h2, h3⟩ := h
    refine ⟨h1, h2, ?_⟩
    rw [h3]
    simp [dispatch_event_registered ev _ cb hcb2 hpe]

theorem receive_all_frame (evts : List fm_event_header_t) :
    ∀ m : Machine,
      (receive_all evts m).hci.rx_event_queue = m.hci.rx_event_queue ++ evts ∧
      (receive_all evts m).hci.cb = m.hci.cb ∧
      (receive_all evts m).dispatched = m.dispatched := by
  induction evts with
  | nil => intro m; simp [receive_all]
  | cons hdr rest ih =>
    intro m
    have h := ih (enqueue_fm_rx_event hdr m).2
    simp only [receive_all, List.foldl_cons] at h ⊢
    obtain ⟨h1, h2, h3⟩ := h
    rw [h1, h2, h3]
    simp only [enqueue_fm_rx_event]
    split <;> simp

/-! ## The credit bookkeeping through the lifecycle functions -/

theorem creditInv_congr (m0 m m' : Machine)
    (hc : m'.hci.command_credits = m.hci.command_credits)
    (ht : m'.transmit_calls = m.transmit_calls) (hs : m'.sent = m.sent)
    (ha : m'.credits_added = m.credits_added) (h : CreditInv m0 m) : CreditInv m0 m' := by
  unfold CreditInv at h ⊢
  rw [hc, ht, hs, ha]
  exact h

theorem creditInv_iterate_tx (m0 : Machine) (n : Nat) :
    ∀ m : Machine, CreditInv m0 m → CreditInv m0 (Nat.iterate hci_tx_thread_step n m) := by
  induction n with
  | zero => intro m h; exact h
  | succ k ih =>
    intro m h
    rw [Function.iterate_succ_apply]
    exact ih _ (creditInv_tx_step m0 m h)

theorem creditInv_iterate_rx (K : EventCodes) (m0 : Machine) (n : Nat) :
    ∀ m : Machine, CreditInv m0 m → CreditInv m0 (Nat.iterate (hci_rx_thread_step K) n m) := by
  induction n with
  | zero => intro m h; exact h
  | succ k ih =>
    intro m h
    rw [Function.iterate_succ_apply]
    exact ih _ (creditInv_rx_step K m0 m h)

theorem creditInv_run_workers (K : EventCodes) (m0 m : Machine) (t : Nat × Nat)
    (h : CreditInv m0 m) : CreditInv m0 (run_workers K t m) :=
  creditInv_iterate_rx K m0 t.2 _ (creditInv_iterate_tx m0 t.1 m h)

theorem creditInv_poll (K : EventCodes) (m0 : Machine) (sleeps : List (Nat × Nat)) :
    ∀ m m' : Machine, CreditInv m0 m → poll_threads_running K sleeps m = some m' →
      CreditInv m0 m' := by
  induction sleeps with
  | nil =>
    intro m m' h hp
    unfold poll_threads_running at hp
    split at hp
    · exact absurd hp (by simp)
    · cases hp; exact h
  | cons t rest ih =>
    intro m m' h hp
    unfold poll_threads_running at hp
    split at hp
    · exact ih _ _ (creditInv_run_workers K m0 m t h) hp
    · cases hp; exact h

theorem creditInv_join_tx (m0 m m' : Machine) (h : CreditInv m0 m)
    (hj : join_tx_thread m = some m') : CreditInv m0 m' := by
  unfold join_tx_thread at hj
  have hi := creditInv_iterate_tx m0 (2 * m.hci.tx_cmd_queue.length + 4) m h
  simp only at hj
  split at hj
  · cases hj
    exact creditInv_congr m0 _ _ rfl rfl rfl rfl hi
  · exact absurd hj (by simp)

theorem creditInv_join_rx (K : EventCodes) (m0 m m' : Machine) (h : CreditInv m0 m)
    (hj : join_rx_thread K m = some m') : CreditInv m0 m' := by
  unfold join_rx_thread at hj
  have hi := creditInv_iterate_rx K m0 (2 * m.hci.rx_event_queue.length + 4) m h
  simp only at hj
  split at hj
  · cases hj
    exact creditInv_congr m0 _ _ rfl rfl rfl rfl hi
  · exact absurd hj (by simp)

theorem creditInv_stop_tx (m0 m m' : Machine) (h : CreditInv m0 m)
    (hs : stop_tx_thread m = some m') : CreditInv m0 m' := by
  unfold stop_tx_thread at hs
  simp only at hs
  split at hs
  · exact creditInv_join_tx m0 _ m' (creditInv_congr m0 m _ (by simp) (by simp) (by simp)
      (by simp) h) hs
  · exact creditInv_join_tx m0 _ m' h hs

theorem creditInv_stop_rx (K : EventCodes) (m0 m m' : Machine) (h : CreditInv m0 m)
    (hs : stop_rx_thread K m = some m') : CreditInv m0 m' := by
  unfold stop_rx_thread at hs
  simp only at hs
  split at hs
  · exact creditInv_join_rx K m0 _ m' (creditInv_congr m0 m _ (by simp) (by simp) (by simp)
      (by simp) h) hs
  · exact creditInv_join_rx K m0 _ m' h hs

theorem creditInv_cleanup (K : EventCodes) (m0 m m' : Machine) (h : CreditInv m0 m)
    (hs : cleanup_threads K m = some m') : CreditInv m0 m' := by
  unfold cleanup_threads at hs
  split at hs
  · exact absurd hs (by simp)
  · rename_i m1 h1
    exact creditInv_stop_tx m0 m1 m' (creditInv_stop_rx K m0 m m1 h h1) hs

theorem creditInv_set_state (m0 m : Machine) (st : fm_power_state_t) (h : CreditInv m0 m) :
    CreditInv m0 (set_state st m) :=
  creditInv_congr m0 m _ rfl rfl rfl rfl h

theorem creditInv_hci_close (m0 m : Machine) (h : CreditInv m0 m) :
    CreditInv m0 (hci_close m) := by
  unfold hci_close
  split
  · exact creditInv_congr m0 m _ rfl rfl rfl rfl h
  · exact h

theorem creditInv_initialization_complete (K : EventCodes) (env : InitEnv) (b : Bool)
    (m0 m m' : Machine) (h : CreditInv m0 m)
    (hi : initialization_complete K env b m = some m') : CreditInv m0 m' := by
  unfold initialization_complete at hi
  have htx : CreditInv m0 (start_tx_thread env.tx_joinable m).2 := by
    unfold start_tx_thread
    split <;> exact creditInv_congr m0 m _ rfl rfl rfl rfl h
  have hrx : CreditInv m0
      (start_rx_thread env.rx_joinable (start_tx_thread env.tx_joinable m).2).2 := by
    unfold start_rx_thread
    split <;> exact creditInv_congr m0 _ _ rfl rfl rfl rfl htx
  simp only at hi
  split at hi
  · split at hi
    · split at hi
      · exact absurd hi (by simp)
      · rename_i m1 h1
        cases hi
        exact creditInv_set_state m0 m1 _ (creditInv_cleanup K m0 _ m1 htx h1)
    · split at hi
      · split at hi
        · exact absurd hi (by simp)
        · rename_i m2 h2
          cases hi
          exact creditInv_set_state m0 m2 _ (creditInv_cleanup K m0 _ m2 hrx h2)
      · cases hi
        exact creditInv_set_state m0 _ _ hrx
  · cases hi; exact h

theorem creditInv_callback (K : EventCodes) (env : InitEnv) (b : Bool)
    (m0 m m' : Machine) (h : CreditInv m0 m)
    (hi : FmHciCallbacks.initializationComplete K env b m = some m') : CreditInv m0 m' := by
  unfold FmHciCallbacks.initializationComplete at hi
  split at hi
  · exact creditInv_initialization_complete K env true m0 m m' h hi
  · exact creditInv_initialization_complete K env false m0 m m' h hi

theorem creditInv_service_call (env : InitEnv) (m0 m : Machine) (h : CreditInv m0 m) :
    CreditInv m0 ( hci_initialize env m).2 := by
  unfold hci_initialize
  simp only
  split
  · exact creditInv_set_state m0 _ _ (creditInv_congr m0 m _ rfl rfl rfl rfl h)
  · exact creditInv_congr m0 m _ rfl rfl rfl rfl h

/-- The state in which `fm_hci_init` returns keeps the credit bookkeeping
relative to the state with the freshly reset record `hci`. -/
theorem creditInv_fm_hci_init (K : EventCodes) (env : InitEnv) (hal : fm_hci_hal_t)
    (m m' : Machine) (st : fm_hc_status) (hv : hal.hal = true)
    (hi : fm_hci_init K env (some hal) m = some (st, m')) :
    CreditInv { m with hci := hci_reset hal.cb } m' := by
  have hstart : CreditInv { m with hci := hci_reset hal.cb }
      ( hci_initialize env (set_state .FM_RADIO_DISABLED { m with hci := hci_reset hal.cb })).2 :=
    creditInv_service_call env _ _ (creditInv_set_state _ _ _
      (creditInv_refl _ (by simp [hci_reset])))
  unfold fm_hci_init at hi
  simp only [hv, Bool.not_true, Bool.false_eq_true, if_false] at hi
  split at hi
  · exact absurd hi (by simp)
  · rename_i m2 hw
    have h2 : CreditInv { m with hci := hci_reset hal.cb } m2 := by
      split at hw
      · split at hw
        · exact absurd hw (by simp)
        · rename_i m1 he
          have h1 : CreditInv { m with hci := hci_reset hal.cb } m1 := by
            split at he
            · split at he
              · cases he; exact hstart
              · exact creditInv_callback K env _ _ _ m1 hstart he
            · cases he; exact hstart
          split at hw
          · split at hw
            · exact absurd hw (by simp)
            · split at hw
              · exact absurd hw (by simp)
              · exact creditInv_callback K env _ _ _ m2 h1 hw
          · cases hw; exact h1
      · cases hw; exact hstart
    split at hi
    · split at hi
      · exact absurd hi (by simp)
      · rename_i m3 hp
        cases hi
        exact creditInv_poll K _ env.sleeps _ _ (creditInv_run_workers K _ m2 _ h2) hp
    · cases hi
      exact creditInv_set_state _ _ _ (creditInv_hci_close _ _ h2)
theorem iterate_proj {α β : Type} (f : α → α) (P : α → β) (h : ∀ a, P (f a) = P a) (n : Nat) :
    ∀ a, P (Nat.iterate f n a) = P a := by
  induction n with
  | zero => intro a; rfl
  | succ k ih => intro a; rw [Function.iterate_succ_apply, ih, h]

theorem hci_transmit_eq (hdr : fm_command_header_t) (m : Machine) :
    hci_transmit hdr m
      = { m with sent := (if m.fmHci then m.sent ++ [hdr] else m.sent),
                 transmit_calls := m.transmit_calls ++ [hdr] } := by
  unfold hci_transmit
  cases h : m.fmHci <;> simp [h]

theorem transmit_all_eq (cmds : List fm_command_header_t) :
    ∀ m : Machine, ∃ p, transmit_all cmds m
      = { m with hci.tx_cmd_queue := m.hci.tx_cmd_queue ++ cmds, hci.tx_thread_ := p } := by
  induction cmds with
  | nil => intro m; exact ⟨m.hci.tx_thread_, by simp [transmit_all]⟩
  | cons hdr rest ih =>
    intro m
    obtain ⟨p, hp⟩ := ih (fm_hci_transmit (some hdr) m).2
    refine ⟨p, ?_⟩
    simp only [transmit_all, List.foldl_cons] at hp ⊢
    rw [hp]
    simp only [fm_hci_transmit, enqueue_fm_tx_cmd, notify_tx_cond]
    split
    · split <;> simp
    · simp

theorem enqueue_fm_rx_event_eq (e : fm_event_header_t) (m : Machine) :
    ∃ p, (enqueue_fm_rx_event e m).2
      = { m with hci.rx_event_queue := m.hci.rx_event_queue ++ [e], hci.rx_thread_ := p } := by
  simp only [enqueue_fm_rx_event, notify_rx_cond]
  split
  · split
    · exact ⟨_, rfl⟩
    · exact ⟨m.hci.rx_thread_, rfl⟩
  · exact ⟨m.hci.rx_thread_, rfl⟩

/-- The transmit drain started at the loop head with exactly as many credits as
the commands `pre` in front of `hdr`: it sends `pre` and blocks holding `hdr`. -/
theorem tx_drain_block_eq (pre : List fm_command_header_t) :
    ∀ (m : Machine) (extra : Nat) (hdr : fm_command_header_t)
      (rest : List fm_command_header_t),
      m.hci.tx_thread_ = .drain_head → m.hci.tx_cmd_queue = pre ++ hdr :: rest →
      m.hci.command_credits = pre.length →
      Nat.iterate dequeue_fm_tx_cmd_step (2 * pre.length + 1 + extra) m
        = { m with hci.is_tx_processing := true, hci.tx_cmd_queue := rest,
                   hci.command_credits := 0, hci.tx_thread_ := .credit_gate hdr,
                   transmit_calls := m.transmit_calls ++ pre,
                   sent := (if m.fmHci then m.sent ++ pre else m.sent) } := by
  induction pre with
  | nil =>
    intro m extra hdr rest hp hq hc
    have e : 2 * ([] : List fm_command_header_t).length + 1 + extra = extra + 1 := by simp; omega
    rw [e, Function.iterate_succ_apply, tx_step_pop m hdr rest hp (by simpa using hq),
      Function.iterate_fixed (tx_step_blocked _ hdr rfl (by simpa using hc))]
    simp at hc
    simp [hc]
  | cons c pre ih =>
    intro m extra hdr rest hp hq hc
    have e : 2 * (c :: pre).length + 1 + extra = (2 * pre.length + 1 + extra) + 1 + 1 := by
      simp; omega
    have hc1 : m.hci.command_credits = (pre.length : Int) + 1 := by simpa using hc
    rw [e, Function.iterate_succ_apply, Function.iterate_succ_apply,
      tx_step_pop m c (pre ++ hdr :: rest) hp (by simpa using hq),
      tx_step_send _ c rfl (by simp; omega), hci_transmit_eq]
    rw [ih _ extra hdr rest rfl (by simp) (by simp; omega)]
    cases hf : m.fmHci <;> simp [hf]

/-- The transmit drain resumed at the credit gate holding `hdr`, with enough
credits for `hdr` and the whole queue: it sends `hdr`, then the queue, and
returns. -/
theorem tx_resume_eq (q : List fm_command_header_t) :
    ∀ (m : Machine) (extra : Nat) (hdr : fm_command_header_t),
      m.hci.tx_thread_ = .credit_gate hdr → m.hci.tx_cmd_queue = q →
      (q.length : Int) + 1 ≤ m.hci.command_credits →
      Nat.iterate dequeue_fm_tx_cmd_step (2 * q.length + 2 + extra) m
        = { m with hci.is_tx_processing := false, hci.tx_cmd_queue := [],
                   hci.command_credits := m.hci.command_credits - 1 - q.length,
                   hci.tx_thread_ := .loop_cond,
                   transmit_calls := m.transmit_calls ++ hdr :: q,
                   sent := (if m.fmHci then m.sent ++ hdr :: q else m.sent) } := by
  induction q with
  | nil =>
    intro m extra hdr hp hq hc
    have e : 2 * ([] : List fm_command_header_t).length + 2 + extra = extra + 1 + 1 := by
      simp; omega
    rw [e, Function.iterate_succ_apply, Function.iterate_succ_apply,
      tx_step_send m hdr hp (by simp at hc; omega), hci_transmit_eq,
      tx_step_empty _ rfl (by simpa using hq),
      Function.iterate_fixed (tx_step_returned _ rfl)]
    cases hf : m.fmHci <;> simp [hf, hq]
  | cons c q ih =>
    intro m extra hdr hp hq hc
    have e : 2 * (c :: q).length + 2 + extra = (2 * q.length + 2 + extra) + 1 + 1 := by
      simp; omega
    have hc1 : (q.length : Int) + 1 + 1 ≤ m.hci.command_credits := by simpa using hc
    rw [e, Function.iterate_succ_apply, Function.iterate_succ_apply,
      tx_step_send m hdr hp (by omega), hci_transmit_eq,
      tx_step_pop _ c q rfl (by simpa using hq)]
    rw [ih _ extra c rfl (by simp) (by simp; omega)]
    cases hf : m.fmHci <;> simp [hf] <;> omega

theorem dispatch_event_eq (e : fm_event_header_t) (m : Machine) :
    ∃ d, dispatch_event e m = { m with dispatched := d } := by
  unfold dispatch_event
  split
  · split
    · exact ⟨_, rfl⟩
    · exact ⟨m.dispatched, rfl⟩
  · exact ⟨m.dispatched, rfl⟩

/-- The receive drain of a queue holding the single event `e`. -/
theorem rx_drain_single_eq (K : EventCodes) (e : fm_event_header_t) (m : Machine)
    (hq : m.hci.rx_event_queue = [e]) :
    ∃ d, dequeue_fm_rx_event K m
      = { m with hci.is_rx_processing := false, hci.rx_event_queue := [],
                 hci.command_credits := m.hci.command_credits + credit_value K e,
                 hci.rx_thread_ := .loop_cond,
                 credits_added := m.credits_added + credit_value K e,
                 dispatched := d } := by
  unfold dequeue_fm_rx_event
  have e3 : 2 * m.hci.rx_event_queue.length + 1 = 0 + 1 + 1 + 1 := by rw [hq]; rfl
  rw [e3, Function.iterate_succ_apply,
    rx_step_pop K { m with hci.rx_thread_ := .drain_head } e [] rfl (by simpa using hq),
    Function.iterate_succ_apply, rx_step_process K _ e rfl, credit_section_eq,
    Function.iterate_succ_apply]
  obtain ⟨d, hd⟩ := dispatch_event_eq e (add_credits (credit_value K e)
    ({ ({ m with hci.rx_thread_ := .drain_head } : Machine) with
        hci.is_rx_processing := true, hci.rx_event_queue := [],
        hci.rx_thread_ := .process e }))
  refine ⟨d, ?_⟩
  rw [hd, rx_step_empty K _ rfl (by simp [add_credits])]
  simp [add_credits]

/-- One event enqueued on an empty event queue and drained: the counter grows
by the event's credits and the transmit side is untouched. -/
theorem rx_event_effect (K : EventCodes) (e : fm_event_header_t) (m : Machine)
    (hq : m.hci.rx_event_queue = []) :
    (dequeue_fm_rx_event K (enqueue_fm_rx_event e m).2).hci.command_credits
        = m.hci.command_credits + credit_value K e ∧
    (dequeue_fm_rx_event K (enqueue_fm_rx_event e m).2).sent = m.sent ∧
    (dequeue_fm_rx_event K (enqueue_fm_rx_event e m).2).transmit_calls = m.transmit_calls ∧
    (dequeue_fm_rx_event K (enqueue_fm_rx_event e m).2).fmHci = m.fmHci ∧
    (dequeue_fm_rx_event K (enqueue_fm_rx_event e m).2).hci.tx_thread_ = m.hci.tx_thread_ ∧
    (dequeue_fm_rx_event K (enqueue_fm_rx_event e m).2).hci.tx_cmd_queue
        = m.hci.tx_cmd_queue := by
  obtain ⟨p, hp⟩ := enqueue_fm_rx_event_eq e m
  generalize (enqueue_fm_rx_event e m).2 = mE at hp
  obtain ⟨d, hd⟩ := rx_drain_single_eq K e mE (by rw [hp]; simp [hq])
  rw [hd, hp]
  simp

/-- The transmit drain of a queue `pre ++ hdr :: rest` entered with exactly
`pre.length` credits: fields of the state in which it blocks. -/
theorem tx_drain_block_fields (pre : List fm_command_header_t) (m : Machine)
    (hdr : fm_command_header_t) (rest : List fm_command_header_t)
    (hq : m.hci.tx_cmd_queue = pre ++ hdr :: rest)
    (hc : m.hci.command_credits = pre.length) :
    (dequeue_fm_tx_cmd m).sent = (if m.fmHci then m.sent ++ pre else m.sent) ∧
    (dequeue_fm_tx_cmd m).transmit_calls = m.transmit_calls ++ pre ∧
    (dequeue_fm_tx_cmd m).hci.tx_thread_ = .credit_gate hdr ∧
    (dequeue_fm_tx_cmd m).hci.tx_cmd_queue = rest ∧
    (dequeue_fm_tx_cmd m).hci.command_credits = 0 ∧
    (dequeue_fm_tx_cmd m).hci.rx_event_queue = m.hci.rx_event_queue ∧
    (dequeue_fm_tx_cmd m).fmHci = m.fmHci := by
  have e : 2 * m.hci.tx_cmd_queue.length + 1
      = 2 * pre.length + 1 + (2 * rest.length + 2) := by
    rw [hq]; simp; omega
  unfold dequeue_fm_tx_cmd
  rw [e, tx_drain_block_eq pre { m with hci.tx_thread_ := .drain_head } _ hdr rest rfl hq hc]
  simp

/-- The transmit drain resumed at the credit gate holding `hdr` with enough
credits: fields of the state in which it returns. -/
theorem tx_resume_fields (m : Machine) (hdr : fm_command_header_t)
    (hp : m.hci.tx_thread_ = .credit_gate hdr)
    (hc : (m.hci.tx_cmd_queue.length : Int) + 1 ≤ m.hci.command_credits) :
    (dequeue_fm_tx_cmd_resume m).sent
        = (if m.fmHci then m.sent ++ hdr :: m.hci.tx_cmd_queue else m.sent) ∧
    (dequeue_fm_tx_cmd_resume m).transmit_calls
        = m.transmit_calls ++ hdr :: m.hci.tx_cmd_queue ∧
    (dequeue_fm_tx_cmd_resume m).hci.tx_thread_ = .loop_cond ∧
    (dequeue_fm_tx_cmd_resume m).hci.tx_cmd_queue = [] ∧
    (dequeue_fm_tx_cmd_resume m).hci.command_credits
        = m.hci.command_credits - 1 - m.hci.tx_cmd_queue.length := by
  have h := tx_resume_eq m.hci.tx_cmd_queue m 0 hdr hp rfl hc
  unfold dequeue_fm_tx_cmd_resume
  rw [Nat.add_zero] at h
  rw [h]
  simp

/-! ## What the worker steps leave alone -/

theorem tx_thread_step_state (m : Machine) :
    (hci_tx_thread_step m).hci.state = m.hci.state := by
  unfold hci_tx_thread_step dequeue_fm_tx_cmd_step
  repeat' split
  all_goals simp

theorem tx_thread_step_rx_thread (m : Machine) :
    (hci_tx_thread_step m).hci.rx_thread_ = m.hci.rx_thread_ := by
  unfold hci_tx_thread_step dequeue_fm_tx_cmd_step
  repeat' split
  all_goals simp

theorem tx_thread_step_rx_running (m : Machine) :
    (hci_tx_thread_step m).hci.is_rx_thread_running = m.hci.is_rx_thread_running := by
  unfold hci_tx_thread_step dequeue_fm_tx_cmd_step
  repeat' split
  all_goals simp

theorem rx_thread_step_state (K : EventCodes) (m : Machine) :
    (hci_rx_thread_step K m).hci.state = m.hci.state := by
  unfold hci_rx_thread_step dequeue_fm_rx_event_step
  repeat' split
  all_goals simp

theorem run_workers_state (K : EventCodes) (t : Nat × Nat) (m : Machine) :
    (run_workers K t m).hci.state = m.hci.state := by
  unfold run_workers
  rw [iterate_proj (hci_rx_thread_step K) (fun a => a.hci.state) (rx_thread_step_state K),
    iterate_proj hci_tx_thread_step (fun a => a.hci.state) tx_thread_step_state]

/-! ## The polling loop -/

theorem poll_returns (K : EventCodes) (sleeps : List (Nat × Nat)) :
    ∀ m m' : Machine, poll_threads_running K sleeps m = some m' →
      m'.hci.state = m.hci.state ∧ m'.hci.is_tx_thread_running = true ∧
      m'.hci.is_rx_thread_running = true := by
  induction sleeps with
  | nil =>
    intro m m' h
    unfold poll_threads_running at h
    split at h
    · exact absurd h (by simp)
    · rename_i hc
      cases h
      simpa using hc
  | cons t rest ih =>
    intro m m' h
    unfold poll_threads_running at h
    split at h
    · obtain ⟨h1, h2, h3⟩ := ih _ _ h
      exact ⟨by rw [h1, run_workers_state], h2, h3⟩
    · rename_i hc
      cases h
      simpa using hc

theorem both_running_false (m : Machine) :
    both_running m = false ↔
      (m.hci.is_tx_thread_running == false || m.hci.is_rx_thread_running == false) = true := by
  unfold both_running
  generalize m.hci.is_tx_thread_running = a
  generalize m.hci.is_rx_thread_running = b
  cases a <;> cases b <;> simp

theorem both_running_true (m : Machine) :
    both_running m = true ↔
      ¬ (m.hci.is_tx_thread_running == false || m.hci.is_rx_thread_running == false) = true := by
  unfold both_running
  generalize m.hci.is_tx_thread_running = a
  generalize m.hci.is_rx_thread_running = b
  cases a <;> cases b <;> simp

theorem poll_first_success (K : EventCodes) (sleeps : List (Nat × Nat)) :
    ∀ m m' : Machine, poll_threads_running K sleeps m = some m' →
      ∃ k, k ≤ sleeps.length ∧ m' = workers_after K sleeps k m ∧ both_running m' = true ∧
        ∀ j, j < k → both_running (workers_after K sleeps j m) = false := by
  induction sleeps with
  | nil =>
    intro m m' h
    unfold poll_threads_running at h
    split at h
    · exact absurd h (by simp)
    · rename_i hc
      cases h
      exact ⟨0, by simp, by simp [workers_after], (both_running_true _).2 hc,
        by intro j hj; omega⟩
  | cons t rest ih =>
    intro m m' h
    unfold poll_threads_running at h
    split at h
    · rename_i hc
      obtain ⟨k, hk, e, hb, hlt⟩ := ih _ _ h
      refine ⟨k + 1, by simp; omega, by rw [e]; simp [workers_after], hb, ?_⟩
      intro j hj
      cases j with
      | zero =>
        have e0 : workers_after K (t :: rest) 0 m = m := by simp [workers_after]
        rw [e0]
        exact (both_running_false m).2 hc
      | succ i =>
        have := hlt i (by omega)
        simpa [workers_after] using this
    · rename_i hc
      cases h
      exact ⟨0, by simp, by simp [workers_after], (both_running_true _).2 hc,
        by intro j hj; omega⟩

theorem poll_never (K : EventCodes) (sleeps : List (Nat × Nat)) :
    ∀ m : Machine,
      (∀ j, j ≤ sleeps.length → both_running (workers_after K sleeps j m) = false) →
      poll_threads_running K sleeps m = none := by
  induction sleeps with
  | nil =>
    intro m h
    have h0 := h 0 (by simp)
    have e0 : workers_after K [] 0 m = m := by simp [workers_after]
    rw [e0] at h0
    unfold poll_threads_running
    rw [if_pos ((both_running_false m).1 h0)]
  | cons t rest ih =>
    intro m h
    have h0 := h 0 (by simp)
    have e0 : workers_after K (t :: rest) 0 m = m := by simp [workers_after]
    rw [e0] at h0
    unfold poll_threads_running
    rw [if_pos ((both_running_false m).1 h0)]
    apply ih
    intro j hj
    have := h (j + 1) (by simp; omega)
    simpa [workers_after] using this

theorem poll_ready (K : EventCodes) (sleeps : List (Nat × Nat)) :
    ∀ m : Machine,
      (∃ k, k ≤ sleeps.length ∧ both_running (workers_after K sleeps k m) = true) →
      ∃ m', poll_threads_running K sleeps m = some m' := by
  induction sleeps with
  | nil =>
    intro m h
    obtain ⟨k, hk, hb⟩ := h
    have e0 : workers_after K [] k m = m := by simp [workers_after]
    rw [e0] at hb
    unfold poll_threads_running
    rw [if_neg ((both_running_true m).1 hb)]
    exact ⟨m, rfl⟩
  | cons t rest ih =>
    intro m h
    obtain ⟨k, hk, hb⟩ := h
    unfold poll_threads_running
    by_cases hc : (m.hci.is_tx_thread_running == false || m.hci.is_rx_thread_running == false)
        = true
    · rw [if_pos hc]
      apply ih
      cases k with
      | zero =>
        have e0 : workers_after K (t :: rest) 0 m = m := by simp [workers_after]
        rw [e0] at hb
        exact absurd hc ((both_running_true m).1 hb)
      | succ j =>
        refine ⟨j, by simpa using hk, ?_⟩
        simpa [workers_after] using hb
    · rw [if_neg hc]
      exact ⟨m, rfl⟩

/-! ## Order is kept under every schedule -/

theorem tx_order_apply (K : EventCodes) (a : Action) (m : Machine) :
    (a.apply K m).transmit_calls ++ tx_pending (a.apply K m)
      = m.transmit_calls ++ tx_pending m ++ commands_of [a] := by
  cases a with
  | transmit hdr =>
    simp only [Action.apply, fm_hci_transmit, enqueue_fm_tx_cmd, notify_tx_cond, tx_pending,
      commands_of]
    repeat' split
    all_goals simp_all
  | receive hdr =>
    simp only [Action.apply, enqueue_fm_rx_event, notify_rx_cond, tx_pending, commands_of]
    repeat' split
    all_goals simp_all
  | tx =>
    simp only [Action.apply, commands_of, List.append_nil]
    cases hp : m.hci.tx_thread_ with
    | credit_gate hdr =>
      by_cases hz : m.hci.command_credits = 0
      · simp [hci_tx_thread_step, hp, tx_step_blocked m hdr hp hz]
      · simp [hci_tx_thread_step, hp, tx_step_send m hdr hp hz, tx_pending]
    | drain_head =>
      cases hq : m.hci.tx_cmd_queue with
      | nil => simp [hci_tx_thread_step, hp, tx_step_empty m hp hq, tx_pending, hq]
      | cons hdr rest =>
        simp [hci_tx_thread_step, hp, tx_step_pop m hdr rest hp hq, tx_pending, hq]
    | spawned => simp [hci_tx_thread_step, hp, tx_pending]
    | loop_cond =>
      simp only [hci_tx_thread_step, hp, tx_pending]
      split <;> simp
    | wait_cmd => simp [hci_tx_thread_step, hp]
    | exited => simp [hci_tx_thread_step, hp]
    | no_thread => simp [hci_tx_thread_step, hp]
  | rx =>
    simp only [Action.apply, commands_of, List.append_nil]
    unfold hci_rx_thread_step dequeue_fm_rx_event_step tx_pending
    repeat' split
    all_goals simp_all

/-- Under every schedule of client calls, deliveries and worker steps, the
commands handed to `hci_transmit` followed by the commands still pending are
the commands that were handed over or pending at the start followed by the
commands passed to `fm_hci_transmit` since, in order: none is lost, repeated or
overtaken. -/
theorem fifo_any_schedule (K : EventCodes) (acts : List Action) :
    ∀ m : Machine,
      (run_schedule K acts m).transmit_calls ++ tx_pending (run_schedule K acts m)
        = m.transmit_calls ++ tx_pending m ++ commands_of acts := by
  induction acts with
  | nil => intro m; simp [run_schedule, commands_of]
  | cons a rest ih =>
    intro m
    have h1 := ih (a.apply K m)
    have h2 := tx_order_apply K a m
    simp only [run_schedule, List.foldl_cons] at h1 ⊢
    rw [h1, h2]
    cases a <;> simp [commands_of]

theorem rx_order_apply (K : EventCodes) (a : Action) (m : Machine)
    (cb : fm_hci_callbacks_t) (hcb : m.hci.cb = some cb) (hpe : cb.process_event = true) :
    (a.apply K m).hci.cb = some cb ∧
    (a.apply K m).dispatched ++ rx_pending (a.apply K m)
      = m.dispatched ++ rx_pending m ++ events_of [a] := by
  cases a with
  | transmit hdr =>
    simp only [Action.apply, fm_hci_transmit, enqueue_fm_tx_cmd, notify_tx_cond, rx_pending,
      events_of]
    repeat' split
    all_goals simp_all
  | receive hdr =>
    simp only [Action.apply, enqueue_fm_rx_event, notify_rx_cond, rx_pending, events_of]
    repeat' split
    all_goals simp_all
  | tx =>
    simp only [Action.apply, events_of, List.append_nil]
    unfold hci_tx_thread_step dequeue_fm_tx_cmd_step rx_pending
    repeat' split
    all_goals simp_all
  | rx =>
    simp only [Action.apply, events_of, List.append_nil]
    cases hp : m.hci.rx_thread_ with
    | process e =>
      have hd := dispatch_event_registered e (credit_section K e m) cb (by simp [hcb]) hpe
      simp [hci_rx_thread_step, hp, rx_step_process K m e hp, rx_pending, hd, hcb]
    | drain_head =>
      cases hq : m.hci.rx_event_queue with
      | nil => simp [hci_rx_thread_step, hp, rx_step_empty K m hp hq, rx_pending, hq, hcb]
      | cons e rest =>
        simp [hci_rx_thread_step, hp, rx_step_pop K m e rest hp hq, rx_pending, hq, hcb]
    | spawned => simp [hci_rx_thread_step, hp, rx_pending, hcb]
    | loop_cond =>
      simp only [hci_rx_thread_step, hp, rx_pending]
      split <;> simp [hcb]
    | wait_evt => simp [hci_rx_thread_step, hp, hcb]
    | exited => simp [hci_rx_thread_step, hp, hcb]
    | no_thread => simp [hci_rx_thread_step, hp, hcb]

/-- Under every schedule, with `process_event` registered, the events handed
to `process_event` followed by the events still pending are the events that
were dispatched or pending at the start followed by the events delivered
since, in order. -/
theorem dispatch_any_schedule (K : EventCodes) (cb : fm_hci_callbacks_t)
    (hpe : cb.process_event = true) (acts : List Action) :
    ∀ m : Machine, m.hci.cb = some cb →
      (run_schedule K acts m).dispatched ++ rx_pending (run_schedule K acts m)
        = m.dispatched ++ rx_pending m ++ events_of acts := by
  induction acts with
  | nil => intro m _; simp [run_schedule, events_of]
  | cons a rest ih =>
    intro m hcb
    obtain ⟨h2c, h2⟩ := rx_order_apply K a m cb hcb hpe
    have h1 := ih (a.apply K m) h2c
    simp only [run_schedule, List.foldl_cons] at h1 ⊢
    rw [h1, h2]
    cases a <;> simp [events_of]

/-- Every state a schedule leads to is a reachable state. -/
theorem reachable_run_schedule (K : EventCodes) (acts : List Action) :
    ∀ m0 m : Machine, Reachable K m0 m → Reachable K m0 (run_schedule K acts m) := by
  induction acts with
  | nil => intro m0 m h; exact h
  | cons a rest ih =>
    intro m0 m h
    simp only [run_schedule, List.foldl_cons]
    apply ih
    cases a with
    | transmit hdr => exact .step h (.transmit hdr m)
    | receive hdr => exact .step h (.receive hdr m)
    | tx => exact .step h (.tx m)
    | rx => exact .step h (.rx m)

/-! ## The drains come to rest within their step budgets -/

theorem tx_drain_settles_from (q : List fm_command_header_t) :
    ∀ (m : Machine) (extra : Nat), m.hci.tx_thread_ = .drain_head → m.hci.tx_cmd_queue = q →
      dequeue_fm_tx_cmd_step (Nat.iterate dequeue_fm_tx_cmd_step (2 * q.length + 1 + extra) m)
        = Nat.iterate dequeue_fm_tx_cmd_step (2 * q.length + 1 + extra) m := by
  induction q with
  | nil =>
    intro m extra hp hq
    have e : 2 * ([] : List fm_command_header_t).length + 1 + extra = extra + 1 := by simp; omega
    rw [e, Function.iterate_succ_apply, tx_step_empty m hp hq,
      Function.iterate_fixed (tx_step_returned _ rfl)]
    exact tx_step_returned _ rfl
  | cons hdr rest ih =>
    intro m extra hp hq
    have e : 2 * (hdr :: rest).length + 1 + extra = (2 * rest.length + 1 + extra) + 1 + 1 := by
      simp; omega
    rw [e, Function.iterate_succ_apply, tx_step_pop m hdr rest hp hq]
    by_cases hz : m.hci.command_credits = 0
    · have hb := tx_step_blocked
        ({ m with hci.is_tx_processing := true, hci.tx_cmd_queue := rest,
                  hci.tx_thread_ := .credit_gate hdr }) hdr rfl hz
      rw [Function.iterate_fixed hb]
      exact hb
    · have hs := tx_step_send
        ({ m with hci.is_tx_processing := true, hci.tx_cmd_queue := rest,
                  hci.tx_thread_ := .credit_gate hdr }) hdr rfl hz
      rw [Function.iterate_succ_apply, hs]
      exact ih _ extra rfl (by simp)

/-- The step budget of `dequeue_fm_tx_cmd` is enough: the state it yields is
one in which the drain has returned or stands blocked at the credit gate, so a
further step changes nothing. -/
theorem dequeue_fm_tx_cmd_settles (m : Machine) :
    dequeue_fm_tx_cmd_step (dequeue_fm_tx_cmd m) = dequeue_fm_tx_cmd m := by
  unfold dequeue_fm_tx_cmd
  exact tx_drain_settles_from m.hci.tx_cmd_queue { m with hci.tx_thread_ := .drain_head } 0
    rfl rfl

theorem rx_drain_returns_from (K : EventCodes) (q : List fm_event_header_t) :
    ∀ (m : Machine) (extra : Nat), m.hci.rx_thread_ = .drain_head → m.hci.rx_event_queue = q →
      (Nat.iterate (dequeue_fm_rx_event_step K) (2 * q.length + 1 + extra) m).hci.rx_thread_
          = .loop_cond ∧
      (Nat.iterate (dequeue_fm_rx_event_step K) (2 * q.length + 1 + extra) m).hci.rx_event_queue
          = [] := by
  induction q with
  | nil =>
    intro m extra hp hq
    have e : 2 * ([] : List fm_event_header_t).length + 1 + extra = extra + 1 := by simp; omega
    rw [e, Function.iterate_succ_apply, rx_step_empty K m hp hq,
      Function.iterate_fixed (rx_step_returned K _ rfl)]
    simp [hq]
  | cons ev rest ih =>
    intro m extra hp hq
    have e : 2 * (ev :: rest).length + 1 + extra = (2 * rest.length + 1 + extra) + 1 + 1 := by
      simp; omega
    rw [e, Function.iterate_succ_apply, Function.iterate_succ_apply, rx_step_pop K m ev rest hp hq,
      rx_step_process K _ ev rfl]
    exact ih _ extra rfl (by simp)

/-- The receive drain never blocks: `dequeue_fm_rx_event` always returns, with
an empty queue. -/
theorem dequeue_fm_rx_event_returns (K : EventCodes) (m : Machine) :
    (dequeue_fm_rx_event K m).hci.rx_thread_ = .loop_cond ∧
    (dequeue_fm_rx_event K m).hci.rx_event_queue = [] := by
  unfold dequeue_fm_rx_event
  exact rx_drain_returns_from K m.hci.rx_event_queue { m with hci.rx_thread_ := .drain_head } 0
    rfl rfl

/-! ## The step budgets of the joins are enough -/

theorem tx_thread_step_after_loop_cond (m : Machine) (hp : m.hci.tx_thread_ = .loop_cond) :
    hci_tx_thread_step (hci_tx_thread_step m) = hci_tx_thread_step m := by
  have h : (hci_tx_thread_step m).hci.tx_thread_ = .wait_cmd ∨
      (hci_tx_thread_step m).hci.tx_thread_ = .exited := by
    simp only [hci_tx_thread_step, hp]
    split <;> simp
  generalize hci_tx_thread_step m = m1 at h
  rcases h with h | h <;> simp [hci_tx_thread_step, h]

theorem tx_thread_settles_from_drain (q : List fm_command_header_t) :
    ∀ (m : Machine) (extra : Nat), m.hci.tx_thread_ = .drain_head → m.hci.tx_cmd_queue = q →
      hci_tx_thread_step (Nat.iterate hci_tx_thread_step (2 * q.length + 2 + extra) m)
        = Nat.iterate hci_tx_thread_step (2 * q.length + 2 + extra) m := by
  induction q with
  | nil =>
    intro m extra hp hq
    have e : 2 * ([] : List fm_command_header_t).length + 2 + extra = extra + 1 + 1 := by
      simp; omega
    have h1 : hci_tx_thread_step m
        = { m with hci.is_tx_processing := false, hci.tx_thread_ := .loop_cond } := by
      simp [hci_tx_thread_step, hp, tx_step_empty m hp hq]
    have h2 := tx_thread_step_after_loop_cond
      { m with hci.is_tx_processing := false, hci.tx_thread_ := .loop_cond } rfl
    rw [e, Function.iterate_succ_apply, h1, Function.iterate_succ_apply,
      Function.iterate_fixed h2]
    exact h2
  | cons hdr rest ih =>
    intro m extra hp hq
    have e : 2 * (hdr :: rest).length + 2 + extra = (2 * rest.length + 2 + extra) + 1 + 1 := by
      simp; omega
    have h1 : hci_tx_thread_step m
        = { m with hci.is_tx_processing := true, hci.tx_cmd_queue := rest,
                   hci.tx_thread_ := .credit_gate hdr } := by
      simp [hci_tx_thread_step, hp, tx_step_pop m hdr rest hp hq]
    rw [e, Function.iterate_succ_apply, h1]
    by_cases hz : m.hci.command_credits = 0
    · have hb : hci_tx_thread_step
          ({ m with hci.is_tx_processing := true, hci.tx_cmd_queue := rest,
                    hci.tx_thread_ := .credit_gate hdr })
          = { m with hci.is_tx_processing := true, hci.tx_cmd_queue := rest,
                     hci.tx_thread_ := .credit_gate hdr } := by
        simp [hci_tx_thread_step, dequeue_fm_tx_cmd_step, hz]
      rw [Function.iterate_fixed hb]
      exact hb
    · have hs : hci_tx_thread_step
          ({ m with hci.is_tx_processing := true, hci.tx_cmd_queue := rest,
                    hci.tx_thread_ := .credit_gate hdr })
          = { hci_transmit hdr
                { ({ m with hci.is_tx_processing := true, hci.tx_cmd_queue := rest,
                            hci.tx_thread_ := .credit_gate hdr } : Machine) with
                  hci.command_credits := m.hci.command_credits - 1 } with
              hci.tx_thread_ := .drain_head } := by
        simp [hci_tx_thread_step, dequeue_fm_tx_cmd_step, hz]
      rw [Function.iterate_succ_apply, hs]
      exact ih _ extra rfl (by simp)

/-- The step budget of `join_tx_thread` is enough: after it the transmit
worker has exited or stands blocked (or there is no thread), so a further step
changes nothing, and a join that does not return is one that waits for a
worker that is blocked or absent. -/
theorem join_tx_thread_budget (m : Machine) :
    hci_tx_thread_step (Nat.iterate hci_tx_thread_step (2 * m.hci.tx_cmd_queue.length + 4) m)
      = Nat.iterate hci_tx_thread_step (2 * m.hci.tx_cmd_queue.length + 4) m := by
  cases hp : m.hci.tx_thread_ with
  | no_thread =>
    have hf : hci_tx_thread_step m = m := by simp [hci_tx_thread_step, hp]
    rw [Function.iterate_fixed hf]; exact hf
  | wait_cmd =>
    have hf : hci_tx_thread_step m = m := by simp [hci_tx_thread_step, hp]
    rw [Function.iterate_fixed hf]; exact hf
  | exited =>
    have hf : hci_tx_thread_step m = m := by simp [hci_tx_thread_step, hp]
    rw [Function.iterate_fixed hf]; exact hf
  | loop_cond =>
    have e : 2 * m.hci.tx_cmd_queue.length + 4 = (2 * m.hci.tx_cmd_queue.length + 3) + 1 := by
      omega
    have h2 := tx_thread_step_after_loop_cond m hp
    rw [e, Function.iterate_succ_apply, Function.iterate_fixed h2]
    exact h2
  | spawned =>
    have e : 2 * m.hci.tx_cmd_queue.length + 4
        = (2 * m.hci.tx_cmd_queue.length + 2) + 1 + 1 := by omega
    have h1 : hci_tx_thread_step m
        = { m with hci.is_tx_thread_running := true, hci.tx_thread_ := .loop_cond } := by
      simp [hci_tx_thread_step, hp]
    have h2 := tx_thread_step_after_loop_cond
      { m with hci.is_tx_thread_running := true, hci.tx_thread_ := .loop_cond } rfl
    rw [e, Function.iterate_succ_apply, h1, Function.iterate_succ_apply,
      Function.iterate_fixed h2]
    exact h2
  | drain_head =>
    exact tx_thread_settles_from_drain m.hci.tx_cmd_queue m 2 hp rfl
  | credit_gate hdr =>
    by_cases hz : m.hci.command_credits = 0
    · have hf : hci_tx_thread_step m = m := by
        simp [hci_tx_thread_step, hp, tx_step_blocked m hdr hp hz]
      rw [Function.iterate_fixed hf]; exact hf
    · have e : 2 * m.hci.tx_cmd_queue.length + 4
          = (2 * m.hci.tx_cmd_queue.length + 2 + 1) + 1 := by omega
      have hs : hci_tx_thread_step m
          = { hci_transmit hdr { m with hci.command_credits := m.hci.command_credits - 1 } with
              hci.tx_thread_ := .drain_head } := by
        simp [hci_tx_thread_step, hp, tx_step_send m hdr hp hz]
      rw [e, Function.iterate_succ_apply, hs]
      exact tx_thread_settles_from_drain m.hci.tx_cmd_queue _ 1 rfl (by simp)

theorem rx_thread_step_after_loop_cond (K : EventCodes) (m : Machine)
    (hp : m.hci.rx_thread_ = .loop_cond) :
    hci_rx_thread_step K (hci_rx_thread_step K m) = hci_rx_thread_step K m := by
  have h : (hci_rx_thread_step K m).hci.rx_thread_ = .wait_evt ∨
      (hci_rx_thread_step K m).hci.rx_thread_ = .exited := by
    simp only [hci_rx_thread_step, hp]
    split <;> simp
  generalize hci_rx_thread_step K m = m1 at h
  rcases h with h | h <;> simp [hci_rx_thread_step, h]

theorem rx_thread_settles_from_drain (K : EventCodes) (q : List fm_event_header_t) :
    ∀ (m : Machine) (extra : Nat), m.hci.rx_thread_ = .drain_head → m.hci.rx_event_queue = q →
      hci_rx_thread_step K (Nat.iterate (hci_rx_thread_step K) (2 * q.length + 2 + extra) m)
        = Nat.iterate (hci_rx_thread_step K) (2 * q.length + 2 + extra) m := by
  induction q with
  | nil =>
    intro m extra hp hq
    have e : 2 * ([] : List fm_event_header_t).length + 2 + extra = extra + 1 + 1 := by
      simp; omega
    have h1 : hci_rx_thread_step K m
        = { m with hci.is_rx_processing := false, hci.rx_thread_ := .loop_cond } := by
      simp [hci_rx_thread_step, hp, rx_step_empty K m hp hq]
    have h2 := rx_thread_step_after_loop_cond K
      { m with hci.is_rx_processing := false, hci.rx_thread_ := .loop_cond } rfl
    rw [e, Function.iterate_succ_apply, h1, Function.iterate_succ_apply,
      Function.iterate_fixed h2]
    exact h2
  | cons ev rest ih =>
    intro m extra hp hq
    have e : 2 * (ev :: rest).length + 2 + extra = (2 * rest.length + 2 + extra) + 1 + 1 := by
      simp; omega
    have h1 : hci_rx_thread_step K m
        = { m with hci.is_rx_processing := true, hci.rx_event_queue := rest,
                   hci.rx_thread_ := .process ev } := by
      simp [hci_rx_thread_step, hp, rx_step_pop K m ev rest hp hq]
    have hs : hci_rx_thread_step K
        ({ m with hci.is_rx_processing := true, hci.rx_event_queue := rest,
                  hci.rx_thread_ := .process ev })
        = { dispatch_event ev (credit_section K ev
              ({ m with hci.is_rx_processing := true, hci.rx_event_queue := rest,
                        hci.rx_thread_ := .process ev } : Machine)) with
            hci.rx_thread_ := .drain_head } := by
      simp [hci_rx_thread_step, dequeue_fm_rx_event_step]
    rw [e, Function.iterate_succ_apply, h1, Function.iterate_succ_apply, hs]
    exact ih _ extra rfl (by simp)

/-- The step budget of `join_rx_thread` is enough: after it the receive worker
has exited or stands blocked in its wait (or there is no thread). -/
theorem join_rx_thread_budget (K : EventCodes) (m : Machine) :
    hci_rx_thread_step K
        (Nat.iterate (hci_rx_thread_step K) (2 * m.hci.rx_event_queue.length + 4) m)
      = Nat.iterate (hci_rx_thread_step K) (2 * m.hci.rx_event_queue.length + 4) m := by
  cases hp : m.hci.rx_thread_ with
  | no_thread =>
    have hf : hci_rx_thread_step K m = m := by simp [hci_rx_thread_step, hp]
    rw [Function.iterate_fixed hf]; exact hf
  | wait_evt =>
    have hf : hci_rx_thread_step K m = m := by simp [hci_rx_thread_step, hp]
    rw [Function.iterate_fixed hf]; exact hf
  | exited =>
    have hf : hci_rx_thread_step K m = m := by simp [hci_rx_thread_step, hp]
    rw [Function.iterate_fixed hf]; exact hf
  | loop_cond =>
    have e : 2 * m.hci.rx_event_queue.length + 4
        = (2 * m.hci.rx_event_queue.length + 3) + 1 := by omega
    have h2 := rx_thread_step_after_loop_cond K m hp
    rw [e, Function.iterate_succ_apply, Function.iterate_fixed h2]
    exact h2
  | spawned =>
    have e : 2 * m.hci.rx_event_queue.length + 4
        = (2 * m.hci.rx_event_queue.length + 2) + 1 + 1 := by omega
    have h1 : hci_rx_thread_step K m
        = { m with hci.is_rx_thread_running := true, hci.rx_thread_ := .loop_cond } := by
      simp [hci_rx_thread_step, hp]
    have h2 := rx_thread_step_after_loop_cond K
      { m with hci.is_rx_thread_running := true, hci.rx_thread_ := .loop_cond } rfl
    rw [e, Function.iterate_succ_apply, h1, Function.iterate_succ_apply,
      Function.iterate_fixed h2]
    exact h2
  | drain_head =>
    exact rx_thread_settles_from_drain K m.hci.rx_event_queue m 2 hp rfl
  | process ev =>
    have e : 2 * m.hci.rx_event_queue.length + 4
        = (2 * m.hci.rx_event_queue.length + 2 + 1) + 1 := by omega
    have hs : hci_rx_thread_step K m
        = { dispatch_event ev (credit_section K ev m) with hci.rx_thread_ := .drain_head } := by
      simp [hci_rx_thread_step, hp, rx_step_process K m ev hp]
    rw [e, Function.iterate_succ_apply, hs]
    exact rx_thread_settles_from_drain K m.hci.rx_event_queue _ 1 rfl (by simp)

/-! ## The call of `fm_hci_init`, case by case -/

theorem sample_session_init :
    fm_hci_init sample_codes sample_env (some sample_hal) boot
      = some (.FM_HC_STATUS_SUCCESS, sample_session) := by
  decide

/-- A successful callback that has run before `fm_hci_init` begins to wait
leads to the same session: the wait is skipped. -/
theorem sample_session_init_early :
    fm_hci_init sample_codes sample_env_early (some sample_hal) boot
      = some (.FM_HC_STATUS_SUCCESS, sample_session) := by
  decide

theorem fm_hci_init_unreachable (K : EventCodes) (env : InitEnv) (hal : fm_hci_hal_t)
    (m : Machine) (hv : hal.hal = true) (hs : env.service = false) :
    fm_hci_init K env (some hal) m
      = some (.FM_HC_STATUS_FAIL,
          set_state .FM_RADIO_DISABLED
            { set_state .FM_RADIO_DISABLED { m with hci := hci_reset hal.cb } with
              fmHci := false }) := by
  simp [fm_hci_init, hci_initialize, hv, hs, set_state, hci_close, hci_reset]

/-- With a reachable service and a callback of status `b`: the callback runs in
the state left by `hci_initialize`, before the test of the state or during the
wait.  A callback that has run before the test and left the state `Enabling`
is followed by a wait that nothing ends. -/
theorem fm_hci_init_reachable (K : EventCodes) (env : InitEnv) (hal : fm_hci_hal_t)
    (m : Machine) (b : Bool) (hv : hal.hal = true) (hs : env.service = true)
    (hi : env.init_status = some b) :
    fm_hci_init K env (some hal) m
      = match after_wait K env hal b m with
        | none => none
        | some m2 =>
          if env.callback_early && m2.hci.state == .FM_RADIO_ENABLING then none
          else if m2.hci.state == .FM_RADIO_ENABLED then
            match poll_threads_running K env.sleeps (run_workers K env.head_start m2) with
            | none => none
            | some m3 => some (.FM_HC_STATUS_SUCCESS, m3)
          else
            some (.FM_HC_STATUS_FAIL, set_state .FM_RADIO_DISABLED (hci_close m2)) := by
  cases he : env.callback_early
  · simp [fm_hci_init, hci_initialize, after_wait, hv, hs, hi, he, set_state]
  · simp only [fm_hci_init, hci_initialize, after_wait, hv, hs, hi, he, set_state,
      Bool.not_true, Bool.false_eq_true, if_false, if_true, Bool.true_and]
    cases FmHciCallbacks.initializationComplete K env b _ with
    | none => rfl
    | some m1 =>
      by_cases h : m1.hci.state = .FM_RADIO_ENABLING <;> simp [h]

theorem fm_hci_init_no_callback (K : EventCodes) (env : InitEnv) (hal : fm_hci_hal_t)
    (m : Machine) (hv : hal.hal = true) (hs : env.service = true)
    (hi : env.init_status = none) :
    fm_hci_init K env (some hal) m = none := by
  cases he : env.callback_early <;>
    simp [fm_hci_init, hci_initialize, hv, hs, hi, he, set_state]

/-- The failure callback leaves the state as it is. -/
theorem after_wait_failure (K : EventCodes) (env : InitEnv) (hal : fm_hci_hal_t) (m : Machine) :
    after_wait K env hal false m
      = some (set_state .FM_RADIO_ENABLING
          { set_state .FM_RADIO_DISABLED { m with hci := hci_reset hal.cb } with
            fmHci := true }) := by
  simp [after_wait, FmHciCallbacks.initializationComplete, initialization_complete]

/-- With a reachable service, a failure callback that has run before
`fm_hci_init` tests the state leaves that state `Enabling`; the call then waits
for a notification that has already been given, and does not return. -/
theorem fm_hci_init_early_failure (K : EventCodes) (env : InitEnv) (hal : fm_hci_hal_t)
    (m : Machine) (hv : hal.hal = true) (hs : env.service = true)
    (hi : env.init_status = some false) (he : env.callback_early = true) :
    fm_hci_init K env (some hal) m = none := by
  rw [fm_hci_init_reachable K env hal m false hv hs hi, after_wait_failure]
  simp [he, set_state]

/-- With a reachable service, a failure callback that arrives while
`fm_hci_init` waits ends the wait with the state still `Enabling`; the call
closes the transport, sets the state `Disabled` and returns `FAIL`. -/
theorem fm_hci_init_late_failure (K : EventCodes) (env : InitEnv) (hal : fm_hci_hal_t)
    (m : Machine) (hv : hal.hal = true) (hs : env.service = true)
    (hi : env.init_status = some false) (he : env.callback_early = false) :
    fm_hci_init K env (some hal) m
      = some (.FM_HC_STATUS_FAIL,
          set_state .FM_RADIO_DISABLED (hci_close
            (set_state .FM_RADIO_ENABLING
              { set_state .FM_RADIO_DISABLED { m with hci := hci_reset hal.cb } with
                fmHci := true }))) := by
  rw [fm_hci_init_reachable K env hal m false hv hs hi, after_wait_failure]
  simp [he, set_state]
/-! ## Locks held at the outward calls -/

theorem transmit_args_append (xs ys : List Call) :
    transmit_args (xs ++ ys) = transmit_args xs ++ transmit_args ys := by
  induction xs with
  | nil => rfl
  | cons c rest ih =>
    obtain ⟨callee, held⟩ := c
    cases callee <;> simp [transmit_args, ih]

theorem dispatch_args_append (xs ys : List Call) :
    dispatch_args (xs ++ ys) = dispatch_args xs ++ dispatch_args ys := by
  induction xs with
  | nil => rfl
  | cons c rest ih =>
    obtain ⟨callee, held⟩ := c
    cases callee <;> simp [dispatch_args, ih]

theorem tx_thread_step_dispatched (m : Machine) :
    (hci_tx_thread_step m).dispatched = m.dispatched := by
  unfold hci_tx_thread_step dequeue_fm_tx_cmd_step
  repeat' split
  all_goals simp

theorem rx_thread_step_tx_thread (K : EventCodes) (m : Machine) :
    (hci_rx_thread_step K m).hci.tx_thread_ = m.hci.tx_thread_ := by
  unfold hci_rx_thread_step dequeue_fm_rx_event_step
  repeat' split
  all_goals simp

theorem rx_thread_step_transmit_calls (K : EventCodes) (m : Machine) :
    (hci_rx_thread_step K m).transmit_calls = m.transmit_calls := by
  unfold hci_rx_thread_step dequeue_fm_rx_event_step
  repeat' split
  all_goals simp

theorem tx_exec (m : Machine) (th : List Mutex) (cs : List Call)
    (hth : th = (if tx_outside_drain m then [] else [.tx_cond_mtx])) :
    (exec_ops (tx_ops m) (th, cs)).1
      = (if tx_outside_drain (hci_tx_thread_step m) then [] else [.tx_cond_mtx]) ∧
    (((exec_ops (tx_ops m) (th, cs)).2 = cs ∧
        (hci_tx_thread_step m).transmit_calls = m.transmit_calls) ∨
      ∃ hdr, (exec_ops (tx_ops m) (th, cs)).2
          = cs ++ [{ callee := .hci_transmit hdr, held := [.tx_cond_mtx, .credit_mtx] }] ∧
        (hci_tx_thread_step m).transmit_calls = m.transmit_calls ++ [hdr]) := by
  subst hth
  cases hp : m.hci.tx_thread_ with
  | no_thread => simp [tx_ops, exec_ops, hci_tx_thread_step, tx_outside_drain, hp]
  | spawned => simp [tx_ops, exec_ops, hci_tx_thread_step, tx_outside_drain, hp]
  | wait_cmd => simp [tx_ops, exec_ops, hci_tx_thread_step, tx_outside_drain, hp]
  | exited => simp [tx_ops, exec_ops, hci_tx_thread_step, tx_outside_drain, hp]
  | loop_cond =>
    simp only [tx_ops, hci_tx_thread_step, tx_outside_drain, hp]
    split <;> simp [exec_ops]
  | drain_head =>
    cases hq : m.hci.tx_cmd_queue with
    | nil =>
      simp [tx_ops, exec_ops, hci_tx_thread_step, tx_outside_drain, hp, hq,
        tx_step_empty m hp hq]
    | cons hdr rest =>
      simp [tx_ops, exec_ops, hci_tx_thread_step, tx_outside_drain, hp, hq,
        tx_step_pop m hdr rest hp hq]
  | credit_gate hdr =>
    by_cases hz : m.hci.command_credits = 0
    · simp [tx_ops, exec_ops, hci_tx_thread_step, tx_outside_drain, hp, hz,
        tx_step_blocked m hdr hp hz]
    · simp [tx_ops, exec_ops, hci_tx_thread_step, tx_outside_drain, hp, hz,
        tx_step_send m hdr hp hz]

theorem lockInv_tx (K : EventCodes) (m0 : Machine) (L : LockedMachine) (h : LockInv m0 L) :
    LockInv m0 (L.apply K .tx) := by
  obtain ⟨m, th, rh, cs⟩ := L
  obtain ⟨h1, h2, h3, h4, h5⟩ := h
  simp only at h1 h2 h3 h4 h5
  have hrx : rx_outside_drain (hci_tx_thread_step m) = rx_outside_drain m := by
    simp [rx_outside_drain, tx_thread_step_rx_thread]
  have hd := tx_thread_step_dispatched m
  obtain ⟨e1, e2⟩ := tx_exec m th cs h1
  simp only [LockInv, LockedMachine.apply, Action.apply, hrx, hd]
  refine ⟨e1, h2, ?_⟩
  rcases e2 with ⟨ec, et⟩ | ⟨hdr, ec, et⟩
  · rw [ec, et]
    exact ⟨h3, h4, h5⟩
  · rw [ec, et]
    refine ⟨?_, ?_, ?_⟩
    · intro c hc
      rcases List.mem_append.1 hc with hc | hc
      · exact h3 c hc
      · simp only [List.mem_singleton] at hc
        subst hc
        simp [call_held_exact]
    · rw [transmit_args_append, h4]
      simp [transmit_args]
    · rw [dispatch_args_append, h5]
      simp [dispatch_args]

theorem rx_exec (K : EventCodes) (m : Machine) (rh : List Mutex) (cs : List Call)
    (hrh : rh = (if rx_outside_drain m then [] else [.rx_cond_mtx])) :
    (exec_ops (rx_ops m) (rh, cs)).1
      = (if rx_outside_drain (hci_rx_thread_step K m) then [] else [.rx_cond_mtx]) ∧
    (((exec_ops (rx_ops m) (rh, cs)).2 = cs ∧
        (hci_rx_thread_step K m).dispatched = m.dispatched) ∨
      ∃ e, (exec_ops (rx_ops m) (rh, cs)).2
          = cs ++ [{ callee := .process_event e, held := [.rx_cond_mtx] }] ∧
        (hci_rx_thread_step K m).dispatched = m.dispatched ++ [e]) := by
  subst hrh
  cases hp : m.hci.rx_thread_ with
  | no_thread => simp [rx_ops, exec_ops, hci_rx_thread_step, rx_outside_drain, hp]
  | spawned => simp [rx_ops, exec_ops, hci_rx_thread_step, rx_outside_drain, hp]
  | wait_evt => simp [rx_ops, exec_ops, hci_rx_thread_step, rx_outside_drain, hp]
  | exited => simp [rx_ops, exec_ops, hci_rx_thread_step, rx_outside_drain, hp]
  | loop_cond =>
    simp only [rx_ops, hci_rx_thread_step, rx_outside_drain, hp]
    split <;> simp [exec_ops]
  | drain_head =>
    cases hq : m.hci.rx_event_queue with
    | nil =>
      simp [rx_ops, exec_ops, hci_rx_thread_step, rx_outside_drain, hp, hq,
        rx_step_empty K m hp hq]
    | cons e rest =>
      simp [rx_ops, exec_ops, hci_rx_thread_step, rx_outside_drain, hp, hq,
        rx_step_pop K m e rest hp hq]
  | process e =>
    cases hcb : m.hci.cb with
    | none =>
      simp [rx_ops, exec_ops, hci_rx_thread_step, rx_outside_drain, hp, hcb,
        rx_step_process K m e hp, dispatch_event]
    | some cb =>
      cases hpe : cb.process_event with
      | false =>
        simp [rx_ops, exec_ops, hci_rx_thread_step, rx_outside_drain, hp, hcb, hpe,
          rx_step_process K m e hp, dispatch_event]
      | true =>
        simp [rx_ops, exec_ops, hci_rx_thread_step, rx_outside_drain, hp, hcb, hpe,
          rx_step_process K m e hp, dispatch_event]

theorem lockInv_rx (K : EventCodes) (m0 : Machine) (L : LockedMachine) (h : LockInv m0 L) :
    LockInv m0 (L.apply K .rx) := by
  obtain ⟨m, th, rh, cs⟩ := L
  obtain ⟨h1, h2, h3, h4, h5⟩ := h
  simp only at h1 h2 h3 h4 h5
  have htx : tx_outside_drain (hci_rx_thread_step K m) = tx_outside_drain m := by
    simp [tx_outside_drain, rx_thread_step_tx_thread]
  have ht := rx_thread_step_transmit_calls K m
  obtain ⟨e1, e2⟩ := rx_exec K m rh cs h2
  simp only [LockInv, LockedMachine.apply, Action.apply, htx, ht]
  refine ⟨h1, e1, ?_⟩
  rcases e2 with ⟨ec, ed⟩ | ⟨e, ec, ed⟩
  · rw [ec, ed]
    exact ⟨h3, h4, h5⟩
  · rw [ec, ed]
    refine ⟨?_, ?_, ?_⟩
    · intro c hc
      rcases List.mem_append.1 hc with hc | hc
      · exact h3 c hc
      · simp only [List.mem_singleton] at hc
        subst hc
        simp [call_held_exact]
    · rw [transmit_args_append, h4]
      simp [transmit_args]
    · rw [dispatch_args_append, h5]
      simp [dispatch_args]

theorem lockInv_transmit (K : EventCodes) (m0 : Machine) (L : LockedMachine)
    (hdr : fm_command_header_t) (h : LockInv m0 L) :
    LockInv m0 (L.apply K (.transmit hdr)) := by
  obtain ⟨m, th, rh, cs⟩ := L
  obtain ⟨h1, h2, h3, h4, h5⟩ := h
  simp only at h1 h2 h3 h4 h5
  simp only [LockInv, LockedMachine.apply, Action.apply, fm_hci_transmit, enqueue_fm_tx_cmd,
    notify_tx_cond, tx_wake_ops, tx_outside_drain, rx_outside_drain] at h1 h2 ⊢
  cases hp : m.hci.tx_thread_ <;> cases hb : m.hci.is_tx_processing <;>
    simp [hp, hb] at h1 <;> simp [hp, hb, exec_ops, h1, h2, h4, h5] <;> exact h3

theorem lockInv_receive (K : EventCodes) (m0 : Machine) (L : LockedMachine)
    (e : fm_event_header_t) (h : LockInv m0 L) :
    LockInv m0 (L.apply K (.receive e)) := by
  obtain ⟨m, th, rh, cs⟩ := L
  obtain ⟨h1, h2, h3, h4, h5⟩ := h
  simp only at h1 h2 h3 h4 h5
  simp only [LockInv, LockedMachine.apply, Action.apply, enqueue_fm_rx_event,
    notify_rx_cond, rx_wake_ops, tx_outside_drain, rx_outside_drain] at h1 h2 ⊢
  cases hp : m.hci.rx_thread_ <;> cases hb : m.hci.is_rx_processing <;>
    simp [hp, hb] at h2 <;> simp [hp, hb, exec_ops, h1, h2, h4, h5] <;> exact h3

theorem lockInv_run (K : EventCodes) (m0 : Machine) (acts : List Action) :
    ∀ L : LockedMachine, LockInv m0 L → LockInv m0 (run_locked K acts L) := by
  induction acts with
  | nil => intro L h; exact h
  | cons a rest ih =>
    intro L h
    simp only [run_locked, List.foldl_cons]
    apply ih
    cases a with
    | transmit hdr => exact lockInv_transmit K m0 L hdr h
    | receive e => exact lockInv_receive K m0 L e h
    | tx => exact lockInv_tx K m0 L h
    | rx => exact lockInv_rx K m0 L h

/-- The program state of the locked run is the state of the plain run: the
lock bookkeeping does not alter what the code does. -/
theorem run_locked_state (K : EventCodes) (acts : List Action) :
    ∀ L : LockedMachine, (run_locked K acts L).m = run_schedule K acts L.m := by
  induction acts with
  | nil => intro L; rfl
  | cons a rest ih =>
    intro L
    simp only [run_locked, run_schedule, List.foldl_cons]
    have h := ih (L.apply K a)
    simp only [run_locked, run_schedule] at h
    rw [h]
    cases a <;> rfl

/-! ## Claims -/

/-- C1 (FIFO property).  Commands passed to `fm_hci_transmit` one after the
other and then drained by `dequeue_fm_tx_cmd`, with at least as many credits as
there are queued commands, reach `hci_transmit` (and, with a connected service,
`sendHciCommand`) in exactly the enqueue order, each once, after whatever was
queued before; the drain returns with an empty queue. -/
theorem fifo_transmit_order (cmds : List fm_command_header_t) (m : Machine)
    (hcred : ((m.hci.tx_cmd_queue.length + cmds.length : Nat) : Int) ≤ m.hci.command_credits) :
    (dequeue_fm_tx_cmd (transmit_all cmds m)).transmit_calls
        = m.transmit_calls ++ m.hci.tx_cmd_queue ++ cmds ∧
    (m.fmHci = true →
      (dequeue_fm_tx_cmd (transmit_all cmds m)).sent = m.sent ++ m.hci.tx_cmd_queue ++ cmds) ∧
    (dequeue_fm_tx_cmd (transmit_all cmds m)).hci.tx_cmd_queue = [] ∧
    (dequeue_fm_tx_cmd (transmit_all cmds m)).hci.tx_thread_ = .loop_cond := by
  obtain ⟨f1, f2, f3, f4, f5⟩ := transmit_all_frame cmds m
  have h := tx_drain_run (m.hci.tx_cmd_queue ++ cmds)
    { transmit_all cmds m with hci.tx_thread_ := .drain_head } 0 rfl (by simp [f1])
    (by simp [f2]; simpa using hcred)
  simp only [Nat.add_zero] at h
  have e : (transmit_all cmds m).hci.tx_cmd_queue.length = (m.hci.tx_cmd_queue ++ cmds).length := by
    rw [f1]
  unfold dequeue_fm_tx_cmd
  rw [e]
  obtain ⟨h1, h2, h3, h4, _⟩ := h
  refine ⟨?_, ?_, h2, h1⟩
  · rw [h3]; simp [f3]
  · intro hf
    rw [h4]; simp [f4, f5, hf]

/-- Witness of C1: three different commands, enqueued in the session
`sample_credited` (three credits, nothing queued, nothing sent so far), reach
`hci_transmit` and the service in the order 1, 2, 3. -/
theorem fifo_transmit_order_witness :
    ((sample_credited.hci.tx_cmd_queue.length
        + [sample_cmd 1, sample_cmd 2, sample_cmd 3].length : Nat) : Int)
      ≤ sample_credited.hci.command_credits ∧
    sample_credited.fmHci = true ∧
    (dequeue_fm_tx_cmd (transmit_all [sample_cmd 1, sample_cmd 2, sample_cmd 3]
        sample_credited)).transmit_calls = [sample_cmd 1, sample_cmd 2, sample_cmd 3] ∧
    (dequeue_fm_tx_cmd (transmit_all [sample_cmd 1, sample_cmd 2, sample_cmd 3]
        sample_credited)).sent = [sample_cmd 1, sample_cmd 2, sample_cmd 3] ∧
    (dequeue_fm_tx_cmd (transmit_all [sample_cmd 1, sample_cmd 2, sample_cmd 3]
        sample_credited)).hci.tx_cmd_queue = [] ∧
    (dequeue_fm_tx_cmd (transmit_all [sample_cmd 1, sample_cmd 2, sample_cmd 3]
        sample_credited)).hci.tx_thread_ = .loop_cond :=
  ⟨by decide, rfl,
    (fifo_transmit_order [sample_cmd 1, sample_cmd 2, sample_cmd 3] sample_credited
      (by decide)).1,
    (fifo_transmit_order [sample_cmd 1, sample_cmd 2, sample_cmd 3] sample_credited
      (by decide)).2.1 rfl,
    (fifo_transmit_order [sample_cmd 1, sample_cmd 2, sample_cmd 3] sample_credited
      (by decide)).2.2⟩

/-- C2 (credit invariant).  In every state reached from the state in which
`fm_hci_init` returned (with valid arguments), by commands being enqueued,
events being enqueued and steps of the two workers, the credit counter is not
negative, and the calls of `hci_transmit` (and so the calls of
`sendHciCommand`) made since `fm_hci_init` was called exceed the credits added
since then by at most 1. -/
theorem credit_invariant (K : EventCodes) (env : InitEnv) (hal : fm_hci_hal_t)
    (mprev m0 m : Machine) (st : fm_hc_status) (hv : hal.hal = true)
    (hinit : fm_hci_init K env (some hal) mprev = some (st, m0))
    (hr : Reachable K m0 m) :
    0 ≤ m.hci.command_credits ∧
    ((m.transmit_calls.length : Int) - mprev.transmit_calls.length)
        - (m.credits_added - mprev.credits_added) ≤ 1 ∧
    ((m.sent.length : Int) - mprev.sent.length)
        - (m.credits_added - mprev.credits_added) ≤ 1 := by
  have h := creditInv_reachable K _ m0 m (creditInv_fm_hci_init K env hal mprev m0 st hv hinit) hr
  obtain ⟨h1, h2, h3⟩ := h
  simp only [hci_reset] at h2 h3
  refine ⟨h1, ?_, ?_⟩ <;> omega

/-- Witness of C2: the session `sample_session` after one command was enqueued
and the transmit worker popped it and sent it. -/
theorem credit_invariant_witness :
    0 ≤ (hci_tx_thread_step (hci_tx_thread_step
          (fm_hci_transmit (some (sample_cmd 7)) sample_session).2)).hci.command_credits ∧
    (((hci_tx_thread_step (hci_tx_thread_step
          (fm_hci_transmit (some (sample_cmd 7)) sample_session).2)).transmit_calls.length : Int)
        - boot.transmit_calls.length)
        - ((hci_tx_thread_step (hci_tx_thread_step
          (fm_hci_transmit (some (sample_cmd 7)) sample_session).2)).credits_added
            - boot.credits_added) ≤ 1 ∧
    (((hci_tx_thread_step (hci_tx_thread_step
          (fm_hci_transmit (some (sample_cmd 7)) sample_session).2)).sent.length : Int)
        - boot.sent.length)
        - ((hci_tx_thread_step (hci_tx_thread_step
          (fm_hci_transmit (some (sample_cmd 7)) sample_session).2)).credits_added
            - boot.credits_added) ≤ 1 :=
  credit_invariant sample_codes sample_env sample_hal boot sample_session _
    .FM_HC_STATUS_SUCCESS rfl sample_session_init
    (.step (.step (.step .start (.transmit (sample_cmd 7) _)) (.tx _)) (.tx _))

/-- C3 (no send without credit).  In a state reached from one with a
non-negative counter: a transition out of a state whose counter is 0 makes no
call of `hci_transmit` and no call of `sendHciCommand`, and the transmit worker
standing at the credit gate with a zero counter stays where it is with the
state unchanged; a transition that hands a command to `hci_transmit` is the
transmit worker's step at the credit gate holding that command, taken with a
counter of at least 1, and it lowers the counter by exactly 1. -/
theorem no_send_without_credit (K : EventCodes) (m0 m m' : Machine)
    (h0 : 0 ≤ m0.hci.command_credits) (hr : Reachable K m0 m) (hs : Step K m m') :
    (m.hci.command_credits = 0 → m'.transmit_calls = m.transmit_calls ∧ m'.sent = m.sent) ∧
    (∀ hdr, m.hci.tx_thread_ = .credit_gate hdr → m.hci.command_credits = 0 →
      hci_tx_thread_step m = m) ∧
    (m'.transmit_calls ≠ m.transmit_calls →
      ∃ hdr, m.hci.tx_thread_ = .credit_gate hdr ∧ 1 ≤ m.hci.command_credits ∧
        m' = hci_tx_thread_step m ∧
        m'.hci.command_credits = m.hci.command_credits - 1 ∧
        m'.transmit_calls = m.transmit_calls ++ [hdr] ∧
        m'.sent = (if m.fmHci then m.sent ++ [hdr] else m.sent)) := by
  have hinv := creditInv_reachable K m0 m0 m (creditInv_refl m0 h0) hr
  have hnn : 0 ≤ m.hci.command_credits := hinv.1
  refine ⟨?_, ?_, ?_⟩
  · intro hz
    cases hs with
    | transmit hdr =>
      simp only [fm_hci_transmit, enqueue_fm_tx_cmd]
      split <;> simp
    | receive hdr =>
      simp only [enqueue_fm_rx_event]
      split <;> simp
    | tx =>
      unfold hci_tx_thread_step dequeue_fm_tx_cmd_step
      repeat' split
      all_goals simp_all
    | rx =>
      unfold hci_rx_thread_step dequeue_fm_rx_event_step
      repeat' split
      all_goals simp_all
  · intro hdr hp hz
    simp [hci_tx_thread_step, hp, tx_step_blocked m hdr hp hz]
  · intro hne
    cases hs with
    | transmit hdr =>
      exfalso; apply hne
      simp only [fm_hci_transmit, enqueue_fm_tx_cmd]
      split <;> simp
    | receive hdr =>
      exfalso; apply hne
      simp only [enqueue_fm_rx_event]
      split <;> simp
    | rx =>
      exfalso; apply hne
      unfold hci_rx_thread_step dequeue_fm_rx_event_step
      repeat' split
      all_goals simp_all
    | tx =>
      cases hp : m.hci.tx_thread_ with
      | credit_gate hdr =>
        by_cases hz : m.hci.command_credits = 0
        · exfalso; apply hne
          simp [hci_tx_thread_step, hp, tx_step_blocked m hdr hp hz]
        · refine ⟨hdr, rfl, by omega, rfl, ?_, ?_, ?_⟩
          · simp [hci_tx_thread_step, hp, tx_step_send m hdr hp hz]
          · simp [hci_tx_thread_step, hp, tx_step_send m hdr hp hz]
          · simp [hci_tx_thread_step, hp, tx_step_send m hdr hp hz, hci_transmit_sent]
      | drain_head =>
        exfalso; apply hne
        simp only [hci_tx_thread_step, hp, dequeue_fm_tx_cmd_step]
        split <;> rfl
      | spawned => exfalso; apply hne; simp [hci_tx_thread_step, hp]
      | loop_cond =>
        exfalso; apply hne
        simp only [hci_tx_thread_step, hp]
        split <;> rfl
      | wait_cmd => exfalso; apply hne; simp [hci_tx_thread_step, hp]
      | exited => exfalso; apply hne; simp [hci_tx_thread_step, hp]
      | no_thread => exfalso; apply hne; simp [hci_tx_thread_step, hp]

/-- Witness of C3: the transmit worker at the credit gate of `sample_gate`,
holding one command with one credit. -/
theorem no_send_without_credit_witness :
    (sample_gate.hci.command_credits = 0 →
      (hci_tx_thread_step sample_gate).transmit_calls = sample_gate.transmit_calls ∧
      (hci_tx_thread_step sample_gate).sent = sample_gate.sent) ∧
    (∀ hdr, sample_gate.hci.tx_thread_ = .credit_gate hdr →
      sample_gate.hci.command_credits = 0 → hci_tx_thread_step sample_gate = sample_gate) ∧
    ((hci_tx_thread_step sample_gate).transmit_calls ≠ sample_gate.transmit_calls →
      ∃ hdr, sample_gate.hci.tx_thread_ = .credit_gate hdr ∧
        1 ≤ sample_gate.hci.command_credits ∧
        hci_tx_thread_step sample_gate = hci_tx_thread_step sample_gate ∧
        (hci_tx_thread_step sample_gate).hci.command_credits
          = sample_gate.hci.command_credits - 1 ∧
        (hci_tx_thread_step sample_gate).transmit_calls = sample_gate.transmit_calls ++ [hdr] ∧
        (hci_tx_thread_step sample_gate).sent
          = (if sample_gate.fmHci then sample_gate.sent ++ [hdr] else sample_gate.sent)) :=
  no_send_without_credit sample_codes sample_session sample_gate (hci_tx_thread_step sample_gate)
    (by decide) (.step (.step .start (.transmit (sample_cmd 7) _)) (.tx _)) (.tx _)

/-- C4 (credit update per event).  The receive worker's processing of the
popped event `evt_buf` changes the credit counter as follows: a
command-complete event whose parameter bytes begin with `p0` adds `p0`
(the byte `params[0]`); a command-status event whose parameter bytes begin
with `p0, p1` adds `p1` (the byte `params[1]`); a hardware-error event and an
event of any other code leave the counter as it is.  The three codes are
distinct constants.  The event holds the byte that is read: the code does not
check the length, and on a shorter event it reads past the copy. -/
theorem credit_update_per_event (K : EventCodes) (m : Machine) (evt_buf : fm_event_header_t)
    (hK : K.FM_CMD_STATUS ≠ K.FM_CMD_COMPLETE ∧ K.FM_HW_ERR_EVENT ≠ K.FM_CMD_COMPLETE ∧
      K.FM_HW_ERR_EVENT ≠ K.FM_CMD_STATUS)
    (hp : m.hci.rx_thread_ = .process evt_buf) :
    (evt_buf.evt_code = K.FM_CMD_COMPLETE →
      ∀ (p0 : Nat) (rest : List Nat), evt_buf.params = p0 :: rest →
        (dequeue_fm_rx_event_step K m).hci.command_credits
          = m.hci.command_credits + (p0 : Int)) ∧
    (evt_buf.evt_code = K.FM_CMD_STATUS →
      ∀ (p0 p1 : Nat) (rest : List Nat), evt_buf.params = p0 :: p1 :: rest →
        (dequeue_fm_rx_event_step K m).hci.command_credits
          = m.hci.command_credits + (p1 : Int)) ∧
    (evt_buf.evt_code = K.FM_HW_ERR_EVENT →
      (dequeue_fm_rx_event_step K m).hci.command_credits = m.hci.command_credits) ∧
    (evt_buf.evt_code ≠ K.FM_CMD_COMPLETE → evt_buf.evt_code ≠ K.FM_CMD_STATUS →
      (dequeue_fm_rx_event_step K m).hci.command_credits = m.hci.command_credits) := by
  obtain ⟨hK1, hK2, hK3⟩ := hK
  rw [rx_step_process K m evt_buf hp]
  refine ⟨?_, ?_, ?_, ?_⟩
  · intro h p0 rest hl; simp [credit_value, fm_event_header_t.param, h, hl]
  · intro h p0 p1 rest hl; simp [credit_value, fm_event_header_t.param, h, hl, hK1]
  · intro h; simp [credit_value, h, hK2, hK3]
  · intro h1 h2; simp [credit_value, h1, h2]

/-- Witness of C4: the command-status event `sample_status_event`, with the
bytes `params[0] = 5` and `params[1] = 3`, processed at one credit: the
counter grows by 3, to 4. -/
theorem credit_update_per_event_witness :
    (sample_codes.FM_CMD_STATUS ≠ sample_codes.FM_CMD_COMPLETE ∧
      sample_codes.FM_HW_ERR_EVENT ≠ sample_codes.FM_CMD_COMPLETE ∧
      sample_codes.FM_HW_ERR_EVENT ≠ sample_codes.FM_CMD_STATUS) ∧
    sample_processing.hci.rx_thread_ = .process sample_status_event ∧
    sample_status_event.evt_code = sample_codes.FM_CMD_STATUS ∧
    sample_status_event.params = [5, 3] ∧
    sample_processing.hci.command_credits = 1 ∧
    (dequeue_fm_rx_event_step sample_codes sample_processing).hci.command_credits = 1 + 3 :=
  ⟨by decide, rfl, rfl, rfl, rfl,
    (credit_update_per_event sample_codes sample_processing sample_status_event
      (by decide) rfl).2.1 rfl 5 3 [] rfl⟩

/-- C5 (event dispatch completeness).  With a client callback table whose
`process_event` is registered, events passed to `enqueue_fm_rx_event` one
after the other and then drained by `dequeue_fm_rx_event` are each handed to
`process_event` exactly once, in the enqueue order (after whatever was queued
before), whatever their event codes, and the drain returns with an empty
queue. -/
theorem event_dispatch_complete (K : EventCodes) (evts : List fm_event_header_t) (m : Machine)
    (cb : fm_hci_callbacks_t) (hcb : m.hci.cb = some cb) (hpe : cb.process_event = true) :
    (dequeue_fm_rx_event K (receive_all evts m)).dispatched
        = m.dispatched ++ m.hci.rx_event_queue ++ evts ∧
    (dequeue_fm_rx_event K (receive_all evts m)).hci.rx_event_queue = [] ∧
    (dequeue_fm_rx_event K (receive_all evts m)).hci.rx_thread_ = .loop_cond := by
  obtain ⟨f1, f2, f3⟩ := receive_all_frame evts m
  have h := rx_drain_run K cb hpe (m.hci.rx_event_queue ++ evts)
    { receive_all evts m with hci.rx_thread_ := .drain_head } 0 rfl (by simp [f1])
    (by simp [f2, hcb])
  simp only [Nat.add_zero] at h
  have e : (receive_all evts m).hci.rx_event_queue.length
      = (m.hci.rx_event_queue ++ evts).length := by
    rw [f1]
  unfold dequeue_fm_rx_event
  rw [e]
  obtain ⟨h1, h2, h3⟩ := h
  refine ⟨?_, h2, h1⟩
  rw [h3]; simp [f3]

/-- Witness of C5: two events of different codes enqueued in the session
`sample_session`. -/
theorem event_dispatch_complete_witness :
    (dequeue_fm_rx_event sample_codes
        (receive_all [⟨0x0f, [1], 0⟩, ⟨0x55, [], 0⟩] sample_session)).dispatched
        = sample_session.dispatched ++ sample_session.hci.rx_event_queue
            ++ [⟨0x0f, [1], 0⟩, ⟨0x55, [], 0⟩] ∧
    (dequeue_fm_rx_event sample_codes
        (receive_all [⟨0x0f, [1], 0⟩, ⟨0x55, [], 0⟩] sample_session)).hci.rx_event_queue = [] ∧
    (dequeue_fm_rx_event sample_codes
        (receive_all [⟨0x0f, [1], 0⟩, ⟨0x55, [], 0⟩] sample_session)).hci.rx_thread_ = .loop_cond :=
  event_dispatch_complete sample_codes [⟨0x0f, [1], 0⟩, ⟨0x55, [], 0⟩] sample_session
    { process_event := true, fm_hci_close_done := true } rfl rfl

/-- C6 (concrete scenario).  From a state with one credit, empty queues and a
connected service: after the commands `c1`, `c2`, `c3` are enqueued, the
transmit drain sends exactly `c1` and blocks at the credit gate holding `c2`,
with the counter at 0; after a command-complete event with `params[0] = 2` is
enqueued and drained by the receive worker the counter is 2 and nothing more
was sent; the transmit drain, resumed, sends `c2` and then `c3` and returns
with an empty queue and the counter at 0. -/
theorem credit_scenario (K : EventCodes) (m0 : Machine) (c1 c2 c3 : fm_command_header_t)
    (more : List Nat) (beyond : Nat) (hc : m0.hci.command_credits = 1) (hq : m0.hci.tx_cmd_queue = [])
    (hr : m0.hci.rx_event_queue = []) (hf : m0.fmHci = true) :
    (dequeue_fm_tx_cmd (transmit_all [c1, c2, c3] m0)).sent = m0.sent ++ [c1] ∧
    (dequeue_fm_tx_cmd (transmit_all [c1, c2, c3] m0)).hci.tx_thread_ = .credit_gate c2 ∧
    (dequeue_fm_tx_cmd (transmit_all [c1, c2, c3] m0)).hci.tx_cmd_queue = [c3] ∧
    (dequeue_fm_tx_cmd (transmit_all [c1, c2, c3] m0)).hci.command_credits = 0 ∧
    hci_tx_thread_step (dequeue_fm_tx_cmd (transmit_all [c1, c2, c3] m0))
      = dequeue_fm_tx_cmd (transmit_all [c1, c2, c3] m0) ∧
    (dequeue_fm_rx_event K (enqueue_fm_rx_event ⟨K.FM_CMD_COMPLETE, 2 :: more, beyond⟩
        (dequeue_fm_tx_cmd (transmit_all [c1, c2, c3] m0))).2).hci.command_credits = 2 ∧
    (dequeue_fm_rx_event K (enqueue_fm_rx_event ⟨K.FM_CMD_COMPLETE, 2 :: more, beyond⟩
        (dequeue_fm_tx_cmd (transmit_all [c1, c2, c3] m0))).2).sent = m0.sent ++ [c1] ∧
    (dequeue_fm_tx_cmd_resume (dequeue_fm_rx_event K
        (enqueue_fm_rx_event ⟨K.FM_CMD_COMPLETE, 2 :: more, beyond⟩
          (dequeue_fm_tx_cmd (transmit_all [c1, c2, c3] m0))).2)).sent
      = m0.sent ++ [c1, c2, c3] ∧
    (dequeue_fm_tx_cmd_resume (dequeue_fm_rx_event K
        (enqueue_fm_rx_event ⟨K.FM_CMD_COMPLETE, 2 :: more, beyond⟩
          (dequeue_fm_tx_cmd (transmit_all [c1, c2, c3] m0))).2)).hci.command_credits = 0 ∧
    (dequeue_fm_tx_cmd_resume (dequeue_fm_rx_event K
        (enqueue_fm_rx_event ⟨K.FM_CMD_COMPLETE, 2 :: more, beyond⟩
          (dequeue_fm_tx_cmd (transmit_all [c1, c2, c3] m0))).2)).hci.tx_cmd_queue = [] ∧
    (dequeue_fm_tx_cmd_resume (dequeue_fm_rx_event K
        (enqueue_fm_rx_event ⟨K.FM_CMD_COMPLETE, 2 :: more, beyond⟩
          (dequeue_fm_tx_cmd (transmit_all [c1, c2, c3] m0))).2)).hci.tx_thread_
      = .loop_cond := by
  -- the three commands are enqueued
  obtain ⟨t1, t2, _, t4, t5⟩ := transmit_all_frame [c1, c2, c3] m0
  obtain ⟨p, hp⟩ := transmit_all_eq [c1, c2, c3] m0
  have t6 : (transmit_all [c1, c2, c3] m0).hci.rx_event_queue = [] := by rw [hp]; exact hr
  generalize transmit_all [c1, c2, c3] m0 = mq at t1 t2 t4 t5 t6 ⊢
  clear hp
  -- the first transmit drain
  obtain ⟨a1, _, a3, a4, a5, a6, a7⟩ := tx_drain_block_fields [c1] mq c2 [c3]
    (by rw [t1, hq]; rfl) (by rw [t2, hc]; rfl)
  rw [t5, t4, hf] at a1
  rw [t6] at a6
  rw [t5, hf] at a7
  generalize dequeue_fm_tx_cmd mq = m1 at a1 a3 a4 a5 a6 a7 ⊢
  -- the event
  obtain ⟨b1, b2, _, b4, b5, b6⟩ := rx_event_effect K ⟨K.FM_CMD_COMPLETE, 2 :: more, beyond⟩ m1 a6
  have hv : credit_value K ⟨K.FM_CMD_COMPLETE, 2 :: more, beyond⟩ = 2 := by
    simp [credit_value, fm_event_header_t.param]
  rw [hv, a5] at b1
  rw [a1] at b2
  rw [a7] at b4
  rw [a3] at b5
  rw [a4] at b6
  generalize dequeue_fm_rx_event K (enqueue_fm_rx_event ⟨K.FM_CMD_COMPLETE, 2 :: more, beyond⟩ m1).2
    = m2 at b1 b2 b4 b5 b6 ⊢
  -- the resumed transmit drain
  obtain ⟨d1, _, d3, d4, d5⟩ := tx_resume_fields m2 c2 b5 (by rw [b6, b1]; simp)
  rw [b4, b2, b6] at d1
  rw [b1, b6] at d5
  refine ⟨a1, a3, a4, a5, ?_, ?_, b2, ?_, ?_, d4, d3⟩
  · simp [hci_tx_thread_step, a3, tx_step_blocked m1 c2 a3 a5]
  · rw [b1]; rfl
  · rw [d1]; simp
  · rw [d5]; simp

/-- Witness of C6: the scenario in the session `sample_session`. -/
theorem credit_scenario_witness :
    (dequeue_fm_tx_cmd (transmit_all [sample_cmd 1, sample_cmd 2, sample_cmd 3]
        sample_session)).sent = sample_session.sent ++ [sample_cmd 1] ∧
    (dequeue_fm_tx_cmd (transmit_all [sample_cmd 1, sample_cmd 2, sample_cmd 3]
        sample_session)).hci.tx_thread_ = .credit_gate (sample_cmd 2) ∧
    (dequeue_fm_tx_cmd (transmit_all [sample_cmd 1, sample_cmd 2, sample_cmd 3]
        sample_session)).hci.tx_cmd_queue = [sample_cmd 3] ∧
    (dequeue_fm_tx_cmd (transmit_all [sample_cmd 1, sample_cmd 2, sample_cmd 3]
        sample_session)).hci.command_credits = 0 ∧
    hci_tx_thread_step (dequeue_fm_tx_cmd
        (transmit_all [sample_cmd 1, sample_cmd 2, sample_cmd 3] sample_session))
      = dequeue_fm_tx_cmd
          (transmit_all [sample_cmd 1, sample_cmd 2, sample_cmd 3] sample_session) ∧
    (dequeue_fm_rx_event sample_codes
        (enqueue_fm_rx_event ⟨sample_codes.FM_CMD_COMPLETE, 2 :: [], 0⟩
          (dequeue_fm_tx_cmd (transmit_all [sample_cmd 1, sample_cmd 2, sample_cmd 3]
            sample_session))).2).hci.command_credits = 2 ∧
    (dequeue_fm_rx_event sample_codes
        (enqueue_fm_rx_event ⟨sample_codes.FM_CMD_COMPLETE, 2 :: [], 0⟩
          (dequeue_fm_tx_cmd (transmit_all [sample_cmd 1, sample_cmd 2, sample_cmd 3]
            sample_session))).2).sent = sample_session.sent ++ [sample_cmd 1] ∧
    (dequeue_fm_tx_cmd_resume (dequeue_fm_rx_event sample_codes
        (enqueue_fm_rx_event ⟨sample_codes.FM_CMD_COMPLETE, 2 :: [], 0⟩
          (dequeue_fm_tx_cmd (transmit_all [sample_cmd 1, sample_cmd 2, sample_cmd 3]
            sample_session))).2)).sent
      = sample_session.sent ++ [sample_cmd 1, sample_cmd 2, sample_cmd 3] ∧
    (dequeue_fm_tx_cmd_resume (dequeue_fm_rx_event sample_codes
        (enqueue_fm_rx_event ⟨sample_codes.FM_CMD_COMPLETE, 2 :: [], 0⟩
          (dequeue_fm_tx_cmd (transmit_all [sample_cmd 1, sample_cmd 2, sample_cmd 3]
            sample_session))).2)).hci.command_credits = 0 ∧
    (dequeue_fm_tx_cmd_resume (dequeue_fm_rx_event sample_codes
        (enqueue_fm_rx_event ⟨sample_codes.FM_CMD_COMPLETE, 2 :: [], 0⟩
          (dequeue_fm_tx_cmd (transmit_all [sample_cmd 1, sample_cmd 2, sample_cmd 3]
            sample_session))).2)).hci.tx_cmd_queue = [] ∧
    (dequeue_fm_tx_cmd_resume (dequeue_fm_rx_event sample_codes
        (enqueue_fm_rx_event ⟨sample_codes.FM_CMD_COMPLETE, 2 :: [], 0⟩
          (dequeue_fm_tx_cmd (transmit_all [sample_cmd 1, sample_cmd 2, sample_cmd 3]
            sample_session))).2)).hci.tx_thread_
      = .loop_cond :=
  credit_scenario sample_codes sample_session (sample_cmd 1) (sample_cmd 2) (sample_cmd 3) [] 0
    rfl rfl rfl rfl

/-- C7 (shutdown convergence), evaluated on the code.  `fm_hci_close` never
touches the receive worker: whenever it returns, the thread `rx_thread_` stands
where it stood and `is_rx_thread_running` is what it was.  Called in the
enabled session `sample_session` (both workers started and waiting, queues
empty) it returns with the state `Disabled` and the transmit worker joined,
while the receive worker is still blocked in its wait, not joined, with
`is_rx_thread_running` true; `cleanup_threads`, called at the same point, stops
and joins both workers. -/
theorem fm_hci_close_leaves_rx_thread :
    (∀ m m' : Machine, fm_hci_close m = some m' →
      m'.hci.rx_thread_ = m.hci.rx_thread_ ∧
      m'.hci.is_rx_thread_running = m.hci.is_rx_thread_running) ∧
    (fm_hci_close sample_session).map
        (fun m' => (m'.hci.state, m'.hci.tx_thread_, m'.hci.is_tx_thread_running,
          m'.hci.rx_thread_, m'.hci.is_rx_thread_running))
      = some (.FM_RADIO_DISABLED, .no_thread, false, .wait_evt, true) ∧
    (cleanup_threads sample_codes
        (hci_close (set_state .FM_RADIO_DISABLING sample_session))).map
        (fun m' => (m'.hci.tx_thread_, m'.hci.is_tx_thread_running,
          m'.hci.rx_thread_, m'.hci.is_rx_thread_running))
      = some (.no_thread, false, .no_thread, false) := by
  refine ⟨?_, ?_, ?_⟩
  · intro m m' h
    unfold fm_hci_close at h
    simp only at h
    split at h
    · exact absurd h (by simp)
    · rename_i m3 h3
      cases h
      have hj : m3.hci.rx_thread_ = m.hci.rx_thread_ ∧
          m3.hci.is_rx_thread_running = m.hci.is_rx_thread_running := by
        unfold stop_tx_thread join_tx_thread at h3
        simp only at h3
        split at h3
        · cases h3
          refine ⟨?_, ?_⟩
          · show (Nat.iterate hci_tx_thread_step _ _).hci.rx_thread_ = _
            rw [iterate_proj hci_tx_thread_step (fun a => a.hci.rx_thread_)
              tx_thread_step_rx_thread]
            unfold hci_close set_state notify_tx_cond
            repeat' split
            all_goals rfl
          · show (Nat.iterate hci_tx_thread_step _ _).hci.is_rx_thread_running = _
            rw [iterate_proj hci_tx_thread_step (fun a => a.hci.is_rx_thread_running)
              tx_thread_step_rx_running]
            unfold hci_close set_state notify_tx_cond
            repeat' split
            all_goals rfl
        · exact absurd h3 (by simp)
      unfold notify_close_done set_state
      repeat' split
      all_goals exact hj
  · decide
  · decide

/-- C8 (argument errors).  `fm_hci_transmit` with a null command returns
`NULL_POINTER` and leaves the whole state as it was; `fm_hci_init` with a null
`hci_hal`, or with a null `hci_hal->hal`, returns `NULL_POINTER` and leaves the
whole state as it was; `fm_hci_transmit` with a command returns `SUCCESS` and
the command queue is the old one with the command at its tail. -/
theorem argument_errors (K : EventCodes) (env : InitEnv) (m : Machine) :
    fm_hci_transmit none m = (.FM_HC_STATUS_NULL_POINTER, m) ∧
    fm_hci_init K env none m = some (.FM_HC_STATUS_NULL_POINTER, m) ∧
    (∀ cb, fm_hci_init K env (some { hal := false, cb := cb }) m
      = some (.FM_HC_STATUS_NULL_POINTER, m)) ∧
    (∀ hdr, (fm_hci_transmit (some hdr) m).1 = .FM_HC_STATUS_SUCCESS ∧
      (fm_hci_transmit (some hdr) m).2.hci.tx_cmd_queue = m.hci.tx_cmd_queue ++ [hdr]) := by
  refine ⟨rfl, rfl, fun cb => rfl, fun hdr => ⟨rfl, ?_⟩⟩
  obtain ⟨p, hp⟩ := transmit_all_eq [hdr] m
  simp only [transmit_all, List.foldl_cons, List.foldl_nil] at hp
  rw [hp]

/-- C9 (initialization failure), evaluated on the code.  `fm_hci_init` is
called with valid arguments and a reachable service, and the initialization
callback reports failure before `fm_hci_init` tests the state (surroundings
`sample_env_early_failure`).  The callback leaves the state `Enabling`, the
state in which it ran, and its notification finds nobody waiting;
`fm_hci_init` then finds the state `Enabling`, blocks in `hci.on_cond.wait` and
does not return: `FAIL` is not returned and the state is not set to
`Disabled`.  So it is for every call with these surroundings.  The other
failure paths do what the claim says: the same callback arriving during the
wait (`sample_env_failure`) and an unreachable service
(`sample_env_unreachable`) make the call return `FAIL` with the state
`Disabled`; with an unreachable service the only values assigned to `hci.state`
are `Disabled`; and every call that returns with a state other than `Enabled`
returns `FAIL` with the state `Disabled`. -/
theorem init_failure_early_callback :
    (sample_hal.hal = true ∧ sample_env_early_failure.service = true ∧
      sample_env_early_failure.init_status = some false ∧
      sample_env_early_failure.callback_early = true) ∧
    ( hci_initialize sample_env_early_failure
        (set_state .FM_RADIO_DISABLED { boot with hci := hci_reset sample_hal.cb }))
      = (true, sample_enabling) ∧
    FmHciCallbacks.initializationComplete sample_codes sample_env_early_failure false
        sample_enabling = some sample_enabling ∧
    sample_enabling.hci.state = .FM_RADIO_ENABLING ∧
    fm_hci_init sample_codes sample_env_early_failure (some sample_hal) boot = none ∧
    (∀ (K : EventCodes) (env : InitEnv) (hal : fm_hci_hal_t) (m : Machine),
      hal.hal = true → env.service = true → env.init_status = some false →
      env.callback_early = true → fm_hci_init K env (some hal) m = none) ∧
    (fm_hci_init sample_codes sample_env_failure (some sample_hal) boot).map
        (fun r => (r.1, r.2.hci.state, r.2.state_writes))
      = some (.FM_HC_STATUS_FAIL, .FM_RADIO_DISABLED,
          [.FM_RADIO_DISABLED, .FM_RADIO_ENABLING, .FM_RADIO_DISABLED]) ∧
    (fm_hci_init sample_codes sample_env_unreachable (some sample_hal) boot).map
        (fun r => (r.1, r.2.hci.state, r.2.state_writes))
      = some (.FM_HC_STATUS_FAIL, .FM_RADIO_DISABLED,
          [.FM_RADIO_DISABLED, .FM_RADIO_DISABLED]) ∧
    (∀ (K : EventCodes) (env : InitEnv) (hal : fm_hci_hal_t) (m : Machine),
      hal.hal = true →
      (env.service = false →
        ∃ m', fm_hci_init K env (some hal) m = some (.FM_HC_STATUS_FAIL, m') ∧
          m'.hci.state = .FM_RADIO_DISABLED ∧
          m'.state_writes = m.state_writes ++ [.FM_RADIO_DISABLED, .FM_RADIO_DISABLED]) ∧
      (env.service = true → env.init_status = some false → env.callback_early = false →
        ∃ m', fm_hci_init K env (some hal) m = some (.FM_HC_STATUS_FAIL, m') ∧
          m'.hci.state = .FM_RADIO_DISABLED) ∧
      (∀ st m', fm_hci_init K env (some hal) m = some (st, m') →
        m'.hci.state ≠ .FM_RADIO_ENABLED →
        st = .FM_HC_STATUS_FAIL ∧ m'.hci.state = .FM_RADIO_DISABLED)) := by
  refine ⟨by decide, by decide, by decide, by decide, by decide, ?_, by decide, by decide, ?_⟩
  · intro K env hal m hv hs hi he
    exact fm_hci_init_early_failure K env hal m hv hs hi he
  · intro K env hal m hv
    refine ⟨?_, ?_, ?_⟩
    · intro hs
      exact ⟨_, fm_hci_init_unreachable K env hal m hv hs, rfl, by simp [set_state]⟩
    · intro hs hi he
      exact ⟨_, fm_hci_init_late_failure K env hal m hv hs hi he, rfl⟩
    · intro st m' h hne
      cases hs : env.service with
      | false =>
        rw [fm_hci_init_unreachable K env hal m hv hs] at h
        cases h
        exact ⟨rfl, rfl⟩
      | true =>
        cases hi : env.init_status with
        | none =>
          rw [fm_hci_init_no_callback K env hal m hv hs hi] at h
          exact absurd h (by simp)
        | some b =>
          rw [fm_hci_init_reachable K env hal m b hv hs hi] at h
          split at h
          · exact absurd h (by simp)
          · rename_i m2 hw
            split at h
            · exact absurd h (by simp)
            · split at h
              · rename_i hen
                split at h
                · exact absurd h (by simp)
                · rename_i m3 hp
                  cases h
                  obtain ⟨e1, _, _⟩ := poll_returns K env.sleeps _ _ hp
                  rw [run_workers_state] at e1
                  exact absurd (by rw [e1]; simpa using hen) hne
              · cases h
                exact ⟨rfl, rfl⟩

/-- C10 (startup barrier).  For a call of `fm_hci_init` with valid arguments:
if it returns `SUCCESS` then at the return the state is `Enabled` and both
`is_tx_thread_running` and `is_rx_thread_running` are true, the service was
reachable and reported a successful initialization, and the return happened at
the first test of the polling loop at which both flags were true; if the
state is `Enabled` after the wait and a flag is false at every test of the
polling loop, the call does not return; and if both flags are true at some
test, the call does return `SUCCESS`. -/
theorem startup_barrier (K : EventCodes) (env : InitEnv) (hal : fm_hci_hal_t) (m : Machine)
    (hv : hal.hal = true) :
    (∀ m', fm_hci_init K env (some hal) m = some (.FM_HC_STATUS_SUCCESS, m') →
      m'.hci.state = .FM_RADIO_ENABLED ∧ m'.hci.is_tx_thread_running = true ∧
      m'.hci.is_rx_thread_running = true ∧
      ∃ mE k, env.service = true ∧ env.init_status = some true ∧
        after_wait K env hal true m = some mE ∧ k ≤ env.sleeps.length ∧
        m' = workers_after K env.sleeps k (run_workers K env.head_start mE) ∧
        ∀ j, j < k →
          both_running (workers_after K env.sleeps j (run_workers K env.head_start mE))
            = false) ∧
    (∀ mE, env.service = true → env.init_status = some true →
      after_wait K env hal true m = some mE → mE.hci.state = .FM_RADIO_ENABLED →
      (∀ j, j ≤ env.sleeps.length →
        both_running (workers_after K env.sleeps j (run_workers K env.head_start mE)) = false) →
      fm_hci_init K env (some hal) m = none) ∧
    (∀ mE, env.service = true → env.init_status = some true →
      after_wait K env hal true m = some mE → mE.hci.state = .FM_RADIO_ENABLED →
      (∃ k, k ≤ env.sleeps.length ∧
        both_running (workers_after K env.sleeps k (run_workers K env.head_start mE)) = true) →
      ∃ m', fm_hci_init K env (some hal) m = some (.FM_HC_STATUS_SUCCESS, m')) := by
  refine ⟨?_, ?_, ?_⟩
  · intro m' h
    cases hs : env.service with
    | false =>
      rw [fm_hci_init_unreachable K env hal m hv hs] at h
      exact absurd h (by simp)
    | true =>
      cases hi : env.init_status with
      | none =>
        rw [fm_hci_init_no_callback K env hal m hv hs hi] at h
        exact absurd h (by simp)
      | some b =>
        rw [fm_hci_init_reachable K env hal m b hv hs hi] at h
        split at h
        · exact absurd h (by simp)
        · rename_i m2 hw
          split at h
          · exact absurd h (by simp)
          split at h
          · rename_i hen
            split at h
            · exact absurd h (by simp)
            · rename_i m3 hp
              cases h
              obtain ⟨e1, e2, e3⟩ := poll_returns K env.sleeps _ _ hp
              rw [run_workers_state] at e1
              have hen' : m2.hci.state = .FM_RADIO_ENABLED := by simpa using hen
              obtain ⟨k, hk, ek, _, hlt⟩ := poll_first_success K env.sleeps _ _ hp
              have hb : b = true := by
                cases b with
                | true => rfl
                | false =>
                  exfalso
                  simp [after_wait, FmHciCallbacks.initializationComplete,
                    initialization_complete, set_state] at hw
                  rw [← hw] at hen'
                  simp at hen'
              subst hb
              exact ⟨by rw [e1, hen'], e2, e3, m2, k, rfl, rfl, hw, hk, ek, hlt⟩
          · exact absurd h (by simp)
  · intro mE hs hi hw hen hnever
    rw [fm_hci_init_reachable K env hal m true hv hs hi, hw]
    simp [hen, poll_never K env.sleeps _ hnever]
  · intro mE hs hi hw hen hready
    obtain ⟨m', hp⟩ := poll_ready K env.sleeps _ hready
    rw [fm_hci_init_reachable K env hal m true hv hs hi, hw]
    exact ⟨m', by simp [hen, hp]⟩

/-- Witness of C10: the call of `fm_hci_init` that opens `sample_session`. -/
theorem startup_barrier_witness :
    (∀ m', fm_hci_init sample_codes sample_env (some sample_hal) boot
        = some (.FM_HC_STATUS_SUCCESS, m') →
      m'.hci.state = .FM_RADIO_ENABLED ∧ m'.hci.is_tx_thread_running = true ∧
      m'.hci.is_rx_thread_running = true ∧
      ∃ mE k, sample_env.service = true ∧ sample_env.init_status = some true ∧
        after_wait sample_codes sample_env sample_hal true boot = some mE ∧
        k ≤ sample_env.sleeps.length ∧
        m' = workers_after sample_codes sample_env.sleeps k
          (run_workers sample_codes sample_env.head_start mE) ∧
        ∀ j, j < k →
          both_running (workers_after sample_codes sample_env.sleeps j
            (run_workers sample_codes sample_env.head_start mE)) = false) ∧
    (∀ mE, sample_env.service = true → sample_env.init_status = some true →
      after_wait sample_codes sample_env sample_hal true boot = some mE →
      mE.hci.state = .FM_RADIO_ENABLED →
      (∀ j, j ≤ sample_env.sleeps.length →
        both_running (workers_after sample_codes sample_env.sleeps j
          (run_workers sample_codes sample_env.head_start mE)) = false) →
      fm_hci_init sample_codes sample_env (some sample_hal) boot = none) ∧
    (∀ mE, sample_env.service = true → sample_env.init_status = some true →
      after_wait sample_codes sample_env sample_hal true boot = some mE →
      mE.hci.state = .FM_RADIO_ENABLED →
      (∃ k, k ≤ sample_env.sleeps.length ∧
        both_running (workers_after sample_codes sample_env.sleeps k
          (run_workers sample_codes sample_env.head_start mE)) = true) →
      ∃ m', fm_hci_init sample_codes sample_env (some sample_hal) boot
        = some (.FM_HC_STATUS_SUCCESS, m')) :=
  startup_barrier sample_codes sample_env sample_hal boot rfl

/-- C11 as stated fails on the code: in the state `sample_enabling` (transport
state `Enabling`), the initialization callback reporting failure returns with
the state exactly as it was, so the transport state is still `Enabling` and
not `Disabling`. -/
theorem failure_callback_keeps_enabling :
    sample_enabling.hci.state = .FM_RADIO_ENABLING ∧
    FmHciCallbacks.initializationComplete sample_codes sample_env_failure false sample_enabling
      = some sample_enabling ∧
    ¬ ((initialization_complete sample_codes sample_env_failure false sample_enabling).map
        (fun m => m.hci.state) = some .FM_RADIO_DISABLING) := by
  decide

/-- C11, amended.  When the transport state is `Enabling` and the
initialization callback reports failure, `initialization_complete` changes
nothing: no worker is started, nothing is assigned to `hci.state`, and the
transport state is still `Enabling` when the callback returns.  When the
callback reports success and both workers start, both worker threads exist and
the transport state becomes `Enabled`. -/
theorem init_callback_transitions (K : EventCodes) (env : InitEnv) (m : Machine)
    (hst : m.hci.state = .FM_RADIO_ENABLING)
    (htx : env.tx_joinable = true) (hrx : env.rx_joinable = true) :
    (∃ m', initialization_complete K env false m = some m' ∧
      FmHciCallbacks.initializationComplete K env false m = some m' ∧
      m'.hci.state = .FM_RADIO_ENABLING ∧
      m'.hci.tx_thread_ = m.hci.tx_thread_ ∧ m'.hci.rx_thread_ = m.hci.rx_thread_ ∧
      m'.state_writes = m.state_writes ∧ m' = m) ∧
    (∃ m', initialization_complete K env true m = some m' ∧
      FmHciCallbacks.initializationComplete K env true m = some m' ∧
      m'.hci.state = .FM_RADIO_ENABLED ∧
      m'.hci.tx_thread_ = .spawned ∧ m'.hci.rx_thread_ = .spawned ∧
      m'.state_writes = m.state_writes ++ [.FM_RADIO_ENABLED]) := by
  refine ⟨⟨m, rfl, rfl, hst, rfl, rfl, rfl, rfl⟩, ?_⟩
  refine ⟨set_state .FM_RADIO_ENABLED
    (start_rx_thread true (start_tx_thread true m).2).2, ?_, ?_, rfl, rfl, rfl, rfl⟩
  · simp [initialization_complete, htx, hrx, start_tx_thread, start_rx_thread,
      fm_hc_status.nonzero]
  · simp [FmHciCallbacks.initializationComplete, initialization_complete, htx, hrx,
      start_tx_thread, start_rx_thread, fm_hc_status.nonzero]

/-- Witness of C11, amended: the callback arriving in `sample_enabling`, where
the transport state is `Enabling` and no worker exists. -/
theorem init_callback_transitions_witness :
    sample_enabling.hci.state = .FM_RADIO_ENABLING ∧
    sample_env.tx_joinable = true ∧ sample_env.rx_joinable = true ∧
    (∃ m', initialization_complete sample_codes sample_env false sample_enabling = some m' ∧
      FmHciCallbacks.initializationComplete sample_codes sample_env false sample_enabling
        = some m' ∧
      m'.hci.state = .FM_RADIO_ENABLING ∧
      m'.hci.tx_thread_ = sample_enabling.hci.tx_thread_ ∧
      m'.hci.rx_thread_ = sample_enabling.hci.rx_thread_ ∧
      m'.state_writes = sample_enabling.state_writes ∧ m' = sample_enabling) ∧
    (∃ m', initialization_complete sample_codes sample_env true sample_enabling = some m' ∧
      FmHciCallbacks.initializationComplete sample_codes sample_env true sample_enabling
        = some m' ∧
      m'.hci.state = .FM_RADIO_ENABLED ∧
      m'.hci.tx_thread_ = .spawned ∧ m'.hci.rx_thread_ = .spawned ∧
      m'.state_writes = sample_enabling.state_writes ++ [.FM_RADIO_ENABLED]) :=
  ⟨rfl, rfl, rfl, init_callback_transitions sample_codes sample_env sample_enabling rfl rfl rfl⟩
/-- C12 as stated fails on the code: in the session `sample_session`, in which
one command is enqueued and sent and one event is delivered and dispatched,
`hci_transmit` is invoked while the transmit worker holds `tx_cond_mtx` and
`credit_mtx`, and `process_event` is invoked while the receive worker holds
`rx_cond_mtx`; so it is not the case that every call is made with no lock
held. -/
theorem locks_held_at_calls :
    (run_locked sample_codes sample_schedule (unlocked sample_session)).calls
      = [{ callee := .hci_transmit (sample_cmd 7), held := [.tx_cond_mtx, .credit_mtx] },
         { callee := .process_event { evt_code := 0x55, params := [], beyond := 0 },
           held := [.rx_cond_mtx] }] ∧
    ¬ (∀ c ∈ (run_locked sample_codes sample_schedule (unlocked sample_session)).calls,
        c.held = []) := by
  decide

/-- C12, amended.  In a session that starts with both workers outside their
drains and holding no lock, under every schedule of client calls, deliveries
and worker steps: the calls recorded with their locks are exactly the calls of
`hci_transmit` and of `process_event` that the code makes; at each of them the
calling worker holds neither queue lock; at `process_event` the receive worker
holds its wake-signal lock `rx_cond_mtx` and nothing else, so the credit lock
has been released; at `hci_transmit` the transmit worker holds its wake-signal
lock `tx_cond_mtx`. -/
theorem locks_at_calls (K : EventCodes) (m0 : Machine) (acts : List Action)
    (htx : tx_outside_drain m0 = true) (hrx : rx_outside_drain m0 = true) :
    (run_locked K acts (unlocked m0)).m = run_schedule K acts m0 ∧
    (run_schedule K acts m0).transmit_calls
      = m0.transmit_calls ++ transmit_args (run_locked K acts (unlocked m0)).calls ∧
    (run_schedule K acts m0).dispatched
      = m0.dispatched ++ dispatch_args (run_locked K acts (unlocked m0)).calls ∧
    ∀ c ∈ (run_locked K acts (unlocked m0)).calls,
      Mutex.tx_queue_mtx ∉ c.held ∧ Mutex.rx_queue_mtx ∉ c.held ∧
      match c.callee with
      | .hci_transmit _ => Mutex.tx_cond_mtx ∈ c.held
      | .process_event _ => c.held = [.rx_cond_mtx] := by
  have h0 : LockInv m0 (unlocked m0) := by
    simp [LockInv, unlocked, htx, hrx, transmit_args, dispatch_args]
  obtain ⟨_, _, h3, h4, h5⟩ := lockInv_run K m0 acts (unlocked m0) h0
  have hm := run_locked_state K acts (unlocked m0)
  rw [hm] at h4 h5
  refine ⟨hm, h4, h5, ?_⟩
  intro c hc
  have hx := h3 c hc
  obtain ⟨callee, held⟩ := c
  cases callee <;> simp [call_held_exact] at hx <;> simp [hx]

/-- Witness of C12, amended: the schedule `sample_schedule` in the session
`sample_session`. -/
theorem locks_at_calls_witness :
    (run_locked sample_codes sample_schedule (unlocked sample_session)).m
      = run_schedule sample_codes sample_schedule sample_session ∧
    (run_schedule sample_codes sample_schedule sample_session).transmit_calls
      = sample_session.transmit_calls
        ++ transmit_args (run_locked sample_codes sample_schedule
            (unlocked sample_session)).calls ∧
    (run_schedule sample_codes sample_schedule sample_session).dispatched
      = sample_session.dispatched
        ++ dispatch_args (run_locked sample_codes sample_schedule
            (unlocked sample_session)).calls ∧
    ∀ c ∈ (run_locked sample_codes sample_schedule (unlocked sample_session)).calls,
      Mutex.tx_queue_mtx ∉ c.held ∧ Mutex.rx_queue_mtx ∉ c.held ∧
      match c.callee with
      | .hci_transmit _ => Mutex.tx_cond_mtx ∈ c.held
      | .process_event _ => c.held = [.rx_cond_mtx] :=
  locks_at_calls sample_codes sample_session sample_schedule rfl rfl

end FmHci
